import Mathlib

/-!
Verification of the KPI filter evaluation engine of the stock-screener
repository.  The Python sources are shallowly embedded: pandas data frames
become lists of rows, Python floats become `Option ℚ` (`none` models a
missing value / NaN, whose comparisons are all false), fallible code returns
`Except PErr`.  Settings dictionaries are modelled as structures whose fields
mirror exactly the keys that the UI layer (`ui_main.py`) always populates;
a field holding `none` models a key that is present with value `None`
(for `rel_operator`, which the UI never sets, `none` models the absent key,
so `dict.get` defaults apply).
-/

/-- Python exception kinds that the embedded code can raise. -/
inductive PErr where
  | valueError
  | typeError
  | keyError
deriving DecidableEq, Repr

instance {ε α : Type} [DecidableEq ε] [DecidableEq α] :
    DecidableEq (Except ε α) := fun a b =>
  match a, b with
  | .ok x, .ok y =>
    if h : x = y then .isTrue (by rw [h])
    else .isFalse (by intro c; cases c; exact h rfl)
  | .error x, .error y =>
    if h : x = y then .isTrue (by rw [h])
    else .isFalse (by intro c; cases c; exact h rfl)
  | .ok _, .error _ => .isFalse (by intro c; cases c)
  | .error _, .ok _ => .isFalse (by intro c; cases c)

/-- A Python float cell: `some q` is an ordinary value, `none` models
NaN / missing.  Every ordering comparison involving NaN is `False` in
Python, which the `v*` helpers below reproduce. -/
abbrev Val := Option ℚ

/-- Python `a > b` on two data values (NaN on either side gives False). -/
def vgt (a b : Val) : Bool :=
  match a, b with
  | some x, some y => decide (x > y)
  | _, _ => false

/-- Python `a < b` on two data values. -/
def vlt (a b : Val) : Bool :=
  match a, b with
  | some x, some y => decide (x < y)
  | _, _ => false

/-- Python `a >= b` on two data values. -/
def vge (a b : Val) : Bool :=
  match a, b with
  | some x, some y => decide (x ≥ y)
  | _, _ => false

/-- Python `a <= b` on two data values. -/
def vle (a b : Val) : Bool :=
  match a, b with
  | some x, some y => decide (x ≤ y)
  | _, _ => false

/-- Python `value == 0` for a data value (`NaN == 0` is False). -/
def veqZero (a : Val) : Bool :=
  match a with
  | some x => decide (x = 0)
  | none => false

/-- Python ordering comparison of a data value against a settings value.
A settings value `None` raises TypeError (Python compares the types before
the values); a NaN data value compares as False. -/
def pyGt (v : Val) (t : Option ℚ) : Except PErr Bool :=
  match t with
  | none => .error .typeError
  | some b =>
    match v with
    | none => .ok false
    | some a => .ok (decide (a > b))

/-- See `pyGt`. -/
def pyGe (v : Val) (t : Option ℚ) : Except PErr Bool :=
  match t with
  | none => .error .typeError
  | some b =>
    match v with
    | none => .ok false
    | some a => .ok (decide (a ≥ b))

/-- See `pyGt`. -/
def pyLt (v : Val) (t : Option ℚ) : Except PErr Bool :=
  match t with
  | none => .error .typeError
  | some b =>
    match v with
    | none => .ok false
    | some a => .ok (decide (a < b))

/-- See `pyGt`. -/
def pyLe (v : Val) (t : Option ℚ) : Except PErr Bool :=
  match t with
  | none => .error .typeError
  | some b =>
    match v with
    | none => .ok false
    | some a => .ok (decide (a ≤ b))

/-- Python `==` between a data value and a settings value: never raises;
`x == None` and `NaN == x` are both False. -/
def pyEqT (v : Val) (t : Option ℚ) : Bool :=
  match v, t with
  | some a, some b => decide (a = b)
  | _, _ => false

/-- `(curr - prev) / abs(prev) * 100` from the relative filter.  NaN
propagates.  The `prev = 0` case is unreachable in the engine (it returns
False first); it is mapped to NaN here to keep the function total. -/
def pctChange (curr prev : Val) : Val :=
  match curr, prev with
  | some c, some p => if p = 0 then none else some ((c - p) / |p| * 100)
  | _, _ => none

/-- `DataFrame.tail(k)` / `Series.tail(k)`: the last `k` rows for `k ≥ 0`,
and all rows after the first `-k` rows for negative `k` (pandas semantics). -/
def pyTail (k : Int) (l : List α) : List α :=
  if 0 ≤ k then l.drop (l.length - k.toNat) else l.drop (-k).toNat

/-- Python `x or 1` for an int-or-None setting (None and 0 are falsy). -/
def pyOrOne (o : Option Int) : Int :=
  match o with
  | none => 1
  | some k => if k = 0 then 1 else k

/-- Whitespace characters stripped by Python `int(str)`. -/
def isPySpace (c : Char) : Bool :=
  c = ' ' || c = '\t' || c = '\n' || c = '\r' || c = '\x0b' || c = '\x0c'

/-- ASCII decimal digit test. -/
def isDigitC (c : Char) : Bool :=
  48 ≤ c.toNat && c.toNat ≤ 57

/-- Value of an ASCII digit. -/
def digitVal (c : Char) : Nat := c.toNat - 48

/-- `true` when the list contains two adjacent underscores. -/
def hasDoubleUnderscore : List Char → Bool
  | a :: b :: rest => (a = '_' && b = '_') || hasDoubleUnderscore (b :: rest)
  | _ => false

/-- A valid Python digit run: non-empty, digits with single underscores
allowed only between digits. -/
def validDigitRun (cs : List Char) : Bool :=
  !cs.isEmpty &&
  cs.all (fun c => isDigitC c || c = '_') &&
  isDigitC (cs.headD '_') &&
  isDigitC (cs.getLastD '_') &&
  !hasDoubleUnderscore cs

/-- Decimal value of a digit list (underscores already removed). -/
def digitsValue (cs : List Char) : Nat :=
  cs.foldl (fun acc c => acc * 10 + digitVal c) 0

/-- The digits (with optional underscores) part of Python `int(str)`. -/
def parseDigits (cs : List Char) : Option Nat :=
  if validDigitRun cs then some (digitsValue (cs.filter (fun c => c ≠ '_')))
  else none

/-- Python `int(str)`: optional surrounding whitespace, optional sign,
then a digit run.  `none` models the ValueError raised on any other
input. -/
def pyInt (cs : List Char) : Option Int :=
  let trimmed := ((cs.dropWhile isPySpace).reverse.dropWhile isPySpace).reverse
  match trimmed with
  | [] => none
  | c :: rest =>
    if c = '+' then (parseDigits rest).map (fun n => (n : Int))
    else if c = '-' then (parseDigits rest).map (fun n => -(n : Int))
    else (parseDigits (c :: rest)).map (fun n => (n : Int))

/-- `parse_quarter_string` (identical in `borsdata/filter_engine.py` and
`borsdata/filters/filter_engine.py`): parse `'YYYY-Qx'` to
`(year, quarter)`, returning `(None, None)` on any failure.  Only the
length, the hyphen at index 4, `int(s[:4])`, and the digit at index 6
are checked — the character at index 5 is never inspected. -/
def parse_quarter_string (s : List Char) : Option Int × Option Int :=
  if s.isEmpty || s.length ≠ 7 || s.getD 4 ' ' ≠ '-' then (none, none)
  else
    match pyInt (s.take 4), pyInt (s.drop 6) with
    | some year, some quarter =>
      if quarter = 1 ∨ quarter = 2 ∨ quarter = 3 ∨ quarter = 4 then
        (some year, some quarter)
      else (none, none)
    | _, _ => (none, none)

/-- Python `str.split(sep)` for a one-character separator. -/
def splitOnChar (sep : Char) : List Char → List (List Char)
  | [] => [[]]
  | x :: xs =>
    match splitOnChar sep xs with
    | [] => [[]]
    | h :: t => if x = sep then [] :: h :: t else (x :: h) :: t

/-- The bound parsing of `filters/filter_engine.py`:
`map(int, s.split('Q')) if 'Q' in s else (int(s), None)` inside a
`try`.  Any exception (ValueError from `int`, or an unpacking error when
the split does not have exactly two parts) yields `none`. -/
def parsePairN (s : List Char) : Option (Int × Option Int) :=
  if 'Q' ∈ s then
    match splitOnChar 'Q' s with
    | [a, b] => do
      let y ← pyInt a
      let p ← pyInt b
      pure (y, some p)
    | _ => none
  else (pyInt s).map (fun y => (y, none))

/-- One row of a per-stock KPI data frame: `year`, `period` and `kpiValue`.
For yearly frames (no `period` column) the `period` field is a dummy and is
never read. -/
structure KRow where
  year : Int
  period : Int
  value : Val
deriving DecidableEq, Repr

/-- A per-stock KPI data frame.  `hasPeriod` models whether the `period`
column exists (quarterly data) — pandas code branches on
`'period' in kpi_data.columns`. -/
structure KFrame where
  hasPeriod : Bool
  rows : List KRow
deriving DecidableEq, Repr

/-- Lexicographic (year, period) sort key comparison, non-strict. -/
def rowLeYP (a b : KRow) : Bool :=
  a.year < b.year || (a.year = b.year && a.period ≤ b.period)

/-- Year-only sort key comparison, non-strict. -/
def rowLeY (a b : KRow) : Bool :=
  a.year ≤ b.year

/-- Stable insertion into a sorted list (equal keys keep original order). -/
def insertRow (le : KRow → KRow → Bool) (r : KRow) : List KRow → List KRow
  | [] => [r]
  | x :: xs => if le r x then r :: x :: xs else x :: insertRow le r xs

/-- Stable sort used to model `DataFrame.sort_values`; the engine's rows are
unique by sort key (one observation per period), so stability is
immaterial. -/
def sortRowsBy (le : KRow → KRow → Bool) : List KRow → List KRow
  | [] => []
  | x :: xs => insertRow le x (sortRowsBy le xs)

namespace FE1

/-- `filter_data_by_time_range` from `src/borsdata/filter_engine.py`.
The `Custom Range` path for quarterly bounds parses via
`parse_quarter_string` and keeps a row when
`(start_year < year < end_year) or (start_year == year and period >= start_q)
or (end_year == year and period <= end_q)
or (start_year == end_year == year and start_q <= period <= end_q)`.
The yearly path calls `int(start_quarter[:4])`, which raises ValueError on
non-numeric input; reading `row['period']` on a frame without that column
raises KeyError. -/
def filter_data_by_time_range (kpi_data : KFrame) (duration_type : String)
    (last_n : Option Int) (start_quarter end_quarter : List Char) :
    Except PErr KFrame :=
  if kpi_data.rows.isEmpty then .ok kpi_data
  else
    let is_quarterly := start_quarter.length = 7 && end_quarter.length = 7
    if duration_type = "Last N Quarters" then
      match last_n with
      | some k =>
        if 0 < k then .ok { kpi_data with rows := pyTail k kpi_data.rows }
        else .ok { kpi_data with rows := pyTail 1 kpi_data.rows }
      | none => .ok { kpi_data with rows := pyTail 1 kpi_data.rows }
    else if duration_type = "Custom Range" then
      if !start_quarter.isEmpty && !end_quarter.isEmpty then
        if is_quarterly then
          match parse_quarter_string start_quarter,
                parse_quarter_string end_quarter with
          | (some start_year, some start_q), (some end_year, some end_q) =>
            if !kpi_data.hasPeriod then .error .keyError
            else
              let filtered := kpi_data.rows.filter (fun row =>
                (start_year < row.year && row.year < end_year) ||
                (start_year = row.year && row.period ≥ start_q) ||
                (end_year = row.year && row.period ≤ end_q) ||
                (start_year = end_year && end_year = row.year &&
                 start_q ≤ row.period && row.period ≤ end_q))
              if filtered.isEmpty then .ok { hasPeriod := false, rows := [] }
              else .ok { kpi_data with rows := filtered }
          | _, _ => .ok kpi_data
        else
          match pyInt (start_quarter.take 4), pyInt (end_quarter.take 4) with
          | some start_year, some end_year =>
            let filtered := kpi_data.rows.filter (fun row =>
              start_year ≤ row.year && row.year ≤ end_year)
            if filtered.isEmpty then .ok { hasPeriod := false, rows := [] }
            else .ok { kpi_data with rows := filtered }
          | _, _ => .error .valueError
      else .ok kpi_data
    else .ok kpi_data

end FE1

namespace FE2

/-- `filter_data_by_time_range` from `src/borsdata/filters/filter_engine.py`.
Any duration other than `'Last N Quarters'` reaches the custom-range code.
Bounds are parsed with `map(int, s.split('Q'))` inside a try/except; for the
engine's own `'YYYY-Qx'` literals `int('YYYY-')` raises, so all four bounds
become None and the yearly branch then compares the year column with None,
raising TypeError.  The pandas boolean-mask filters preserve the frame's
columns. -/
def filter_data_by_time_range (kpi_data : KFrame) (duration_type : String)
    (last_n : Option Int) (start_quarter end_quarter : List Char) :
    Except PErr KFrame :=
  if kpi_data.rows.isEmpty then .ok kpi_data
  else
    let has_period := kpi_data.hasPeriod
    if duration_type = "Last N Quarters" then
      match last_n with
      | some k =>
        if 0 < k then .ok { kpi_data with rows := pyTail k kpi_data.rows }
        else
          if !kpi_data.rows.isEmpty then
            .ok { kpi_data with rows := pyTail 1 kpi_data.rows }
          else .ok { kpi_data with rows := [] }
      | none =>
        if !kpi_data.rows.isEmpty then
          .ok { kpi_data with rows := pyTail 1 kpi_data.rows }
        else .ok { kpi_data with rows := [] }
    else
      if !start_quarter.isEmpty && !end_quarter.isEmpty then
        match parsePairN start_quarter, parsePairN end_quarter with
        | some (start_year, start_period?), some (end_year, end_period?) =>
          match start_period?, end_period? with
          | some start_period, some end_period =>
            if has_period then
              .ok { kpi_data with rows := kpi_data.rows.filter (fun row =>
                (row.year > start_year ||
                 (row.year = start_year && row.period ≥ start_period)) &&
                (row.year < end_year ||
                 (row.year = end_year && row.period ≤ end_period))) }
            else
              .ok { kpi_data with rows := kpi_data.rows.filter (fun row =>
                start_year ≤ row.year && row.year ≤ end_year) }
          | _, _ =>
            .ok { kpi_data with rows := kpi_data.rows.filter (fun row =>
              start_year ≤ row.year && row.year ≤ end_year) }
        | _, _ =>
          -- the except-branch set all bounds to None; comparing the year
          -- column with None raises TypeError
          .error .typeError
      else .ok kpi_data

end FE2

/-- The per-leaf settings dictionary exactly as `ui_main.py` builds it
(`kpi_filter_settings[idx]`).  Every key below is always present there; an
`Option` field holding `none` models the key being present with value
`None` — except `rel_operator`, which `ui_main.py` never inserts, so its
`none` models the absent key and `dict.get('rel_operator', '>=')`
defaults.  `duration_type`, `direction` and `kpi_name` are always plain
strings in that dictionary. -/
structure KpiSettings where
  abs_enabled : Bool
  abs_operator : Option String
  abs_value : Option ℚ
  last_n : Option Int
  rel_enabled : Bool
  rel_operator : Option String
  rel_value : Option ℚ
  trend_enabled : Bool
  trend_type : Option String
  trend_n : Option Int
  trend_m : Option Int
  direction_enabled : Bool
  direction : String
  kpi_name : String
  duration_type : String
  start_quarter : Option (List Char)
  end_quarter : Option (List Char)

/-- Settings with every method disabled (baseline for concrete tests). -/
def mkSettings : KpiSettings :=
  { abs_enabled := false, abs_operator := none, abs_value := none,
    last_n := some 1, rel_enabled := false, rel_operator := none,
    rel_value := none, trend_enabled := false, trend_type := none,
    trend_n := none, trend_m := none, direction_enabled := false,
    direction := "either", kpi_name := "K",
    duration_type := "Last N Quarters", start_quarter := none,
    end_quarter := none }

/-- The operator dispatch of the absolute filter:
`(v > t) if op == '>' else (v >= t) if op == '>=' else (v < t) if op == '<'
else (v <= t) if op == '<=' else False`.  Note there is no `'='` case. -/
def absCmp (op : Option String) (v : Val) (t : Option ℚ) : Except PErr Bool :=
  if op = some ">" then pyGt v t
  else if op = some ">=" then pyGe v t
  else if op = some "<" then pyLt v t
  else if op = some "<=" then pyLe v t
  else .ok false

/-- Python `all(...)` over the generator of absolute-filter comparisons:
lazily evaluated, stops at the first False, propagates exceptions. -/
def absAll (op : Option String) (t : Option ℚ) : List Val → Except PErr Bool
  | [] => .ok true
  | v :: rest =>
    match absCmp op v t with
    | .error e => .error e
    | .ok true => absAll op t rest
    | .ok false => .ok false

/-- The absolute-filter block of `evaluate_kpi_filter`.  Returns the value
of `condition_met` (an empty frame in the inner check returns False). -/
def absBlock (s : KpiSettings) (w : KFrame) : Except PErr Bool :=
  let op := s.abs_operator
  let val := s.abs_value
  let duration_type := s.duration_type
  if !w.rows.isEmpty then
    let values_to_check :=
      if duration_type = "Last N Quarters" then
        (pyTail (pyOrOne s.last_n) w.rows).map (fun r => r.value)
      else w.rows.map (fun r => r.value)
    absAll op val values_to_check
  else .ok false

/-- One consecutive step of the relative filter: the operator branch taken
for `pct_change` against `val`; an unmatched operator string performs no
check (the loop just continues), modelled as `.ok true`. -/
def relStep (op : String) (pct : Val) (t : Option ℚ) : Except PErr Bool :=
  if op = ">" then pyGt pct t
  else if op = ">=" then pyGe pct t
  else if op = "<" then pyLt pct t
  else if op = "<=" then pyLe pct t
  else if op = "=" then .ok (pyEqT pct t)
  else .ok true

/-- The loop of the relative filter over consecutive pairs: a zero `prev`
returns False; a failed comparison returns False; otherwise continue.
Mirrors `for i in range(1, len(values))` over `values`. -/
def relLoop (op : String) (t : Option ℚ) : List Val → Except PErr Bool
  | prev :: curr :: rest =>
    if veqZero prev then .ok false
    else
      match relStep op (pctChange curr prev) t with
      | .error e => .error e
      | .ok false => .ok false
      | .ok true => relLoop op t (curr :: rest)
  | _ => .ok true

/-- The relative-filter block: requires at least two values, then checks
every consecutive step, and unconditionally returns (ending
`evaluate_kpi_filter`, so later blocks are not reached). -/
def relBlock (s : KpiSettings) (w : KFrame) : Except PErr Bool :=
  let rel_operator := s.rel_operator.getD ">="
  let val := s.rel_value
  let values := w.rows.map (fun r => r.value)
  if values.length < 2 then .ok false
  else relLoop rel_operator val values

/-- `all(x > y for x, y in zip(vals[1:], vals[:-1]))`: consecutive pairs
all satisfy `rel next prev`. -/
def consecAll (rel : Val → Val → Bool) : List Val → Bool
  | a :: b :: rest => rel b a && consecAll rel (b :: rest)
  | _ => true

/-- The inner search loop of `'Positive-to-Negative'` with sub-window `m`:
some offset `i` has `m` strictly increasing values followed by a strict
drop. -/
def posToNegSearch (vals : List Val) (m : Nat) : Bool :=
  (List.range (vals.length - m)).any (fun i =>
    consecAll (fun next prev => vgt next prev) ((vals.drop i).take m) &&
    (decide (i + m < vals.length) &&
     vlt (vals.getD (i + m) none) (vals.getD (i + m - 1) none)))

/-- The zero-crossing loop of `'Positive-to-Negative'` with `m` unset:
some adjacent pair has `vals[i] > 0 and vals[i+1] <= 0`. -/
def posToNegCross (vals : List Val) : Bool :=
  (List.range (vals.length - 1)).any (fun i =>
    vgt (vals.getD i none) (some 0) && vle (vals.getD (i + 1) none) (some 0))

/-- The inner search loop of `'Negative-to-Positive'` with sub-window `m`. -/
def negToPosSearch (vals : List Val) (m : Nat) : Bool :=
  (List.range (vals.length - m)).any (fun i =>
    consecAll (fun next prev => vlt next prev) ((vals.drop i).take m) &&
    (decide (i + m < vals.length) &&
     vgt (vals.getD (i + m) none) (vals.getD (i + m - 1) none)))

/-- The zero-crossing loop of `'Negative-to-Positive'` with `m` unset. -/
def negToPosCross (vals : List Val) : Bool :=
  (List.range (vals.length - 1)).any (fun i =>
    vlt (vals.getD i none) (some 0) && vge (vals.getD (i + 1) none) (some 0))

/-- `'Positive-to-Negative'` dispatch on `trend_m`. -/
def trendPosToNeg (vals : List Val) (m : Option Int) : Bool :=
  match m with
  | some k =>
    if 0 < k then
      if (vals.length : Int) < k + 1 then false
      else posToNegSearch vals k.toNat
    else posToNegCross vals
  | none => posToNegCross vals

/-- `'Negative-to-Positive'` dispatch on `trend_m`. -/
def trendNegToPos (vals : List Val) (m : Option Int) : Bool :=
  match m with
  | some k =>
    if 0 < k then
      if (vals.length : Int) < k + 1 then false
      else negToPosSearch vals k.toNat
    else negToPosCross vals
  | none => negToPosCross vals

/-- The trend-filter block.  `int(kpi_settings['trend_n'])` raises
TypeError when `trend_n` is None.  `.ok (some b)` is an early `return b`;
`.ok none` means the `trend_type` string matched no branch and execution
falls through to the direction block. -/
def trendBlock (s : KpiSettings) (w : KFrame) : Except PErr (Option Bool) :=
  let trend_type := s.trend_type
  match s.trend_n with
  | none => .error .typeError
  | some n =>
    if (w.rows.length : Int) < n then .ok (some false)
    else
      let vals := (pyTail n w.rows).map (fun r => r.value)
      if trend_type = some "Positive" then
        .ok (some (consecAll (fun next prev => vgt next prev) vals))
      else if trend_type = some "Negative" then
        .ok (some (consecAll (fun next prev => vlt next prev) vals))
      else if trend_type = some "Positive-to-Negative" then
        .ok (some (trendPosToNeg vals s.trend_m))
      else if trend_type = some "Negative-to-Positive" then
        .ok (some (trendNegToPos vals s.trend_m))
      else .ok none

/-- The direction block: with the flag set and at least two rows, sort by
`(year, period)` (or `year` for yearly frames) and compare first against
last value; otherwise fall through to `return True`. -/
def dirBlock (s : KpiSettings) (w : KFrame) : Bool :=
  if s.direction_enabled && !w.rows.isEmpty && decide (2 ≤ w.rows.length) then
    let sorted :=
      if w.hasPeriod then sortRowsBy rowLeYP w.rows
      else sortRowsBy rowLeY w.rows
    let start_value := (sorted.headD ⟨0, 0, none⟩).value
    let end_value := (sorted.getLastD ⟨0, 0, none⟩).value
    if s.direction = "positive" && vle end_value start_value then false
    else if s.direction = "negative" && vge end_value start_value then false
    else true
  else true

/-- The body of `evaluate_kpi_filter` after windowing, the empty check and
(in the `filters/` copy) the missing-value check.  This text is verbatim
identical in `src/borsdata/filter_engine.py` (lines 92-231) and
`src/borsdata/filters/filter_engine.py` (lines 90-229), so both embeddings
share it: absolute gate, then relative (which ends the function), then
trend (falling through on an unknown type), then direction, then
`return True`. -/
def evaluate_core (s : KpiSettings) (w : KFrame) : Except PErr Bool :=
  match (if s.abs_enabled then absBlock s w else .ok true) with
  | .error e => .error e
  | .ok false => .ok false
  | .ok true =>
    if s.rel_enabled then relBlock s w
    else
      match (if s.trend_enabled then trendBlock s w else .ok none) with
      | .error e => .error e
      | .ok (some b) => .ok b
      | .ok none => .ok (dirBlock s w)

namespace FE1

/-- The windowing step at the top of `evaluate_kpi_filter` (lines 83-89 of
the root copy): trend mode forces `'Last N Quarters'` with `trend_n`;
either way `last_n or 1` and `start/end or ''` are passed. -/
def windowOf (s : KpiSettings) (kpi_data : KFrame) : Except PErr KFrame :=
  if s.trend_enabled then
    filter_data_by_time_range kpi_data "Last N Quarters"
      (some (pyOrOne s.trend_n)) (s.start_quarter.getD [])
      (s.end_quarter.getD [])
  else
    filter_data_by_time_range kpi_data s.duration_type
      (some (pyOrOne s.last_n)) (s.start_quarter.getD [])
      (s.end_quarter.getD [])

/-- `evaluate_kpi_filter` from `src/borsdata/filter_engine.py`: window the
data, fail on an empty window, then run the method blocks.  This copy has
no missing-value check. -/
def evaluate_kpi_filter (_kpi_id : Int) (s : KpiSettings) (kpi_data : KFrame) :
    Except PErr Bool :=
  match windowOf s kpi_data with
  | .error e => .error e
  | .ok w =>
    if w.rows.isEmpty then .ok false
    else evaluate_core s w

end FE1

namespace FE2

/-- The windowing step at the top of this copy's `evaluate_kpi_filter`
(lines 77-83), textually the same as in the root copy but calling this
file's `filter_data_by_time_range`. -/
def windowOf (s : KpiSettings) (kpi_data : KFrame) : Except PErr KFrame :=
  if s.trend_enabled then
    filter_data_by_time_range kpi_data "Last N Quarters"
      (some (pyOrOne s.trend_n)) (s.start_quarter.getD [])
      (s.end_quarter.getD [])
  else
    filter_data_by_time_range kpi_data s.duration_type
      (some (pyOrOne s.last_n)) (s.start_quarter.getD [])
      (s.end_quarter.getD [])

/-- `evaluate_kpi_filter` from `src/borsdata/filters/filter_engine.py`:
like the root copy, but after the empty check it excludes the stock if any
`kpiValue` in the window is missing (`isnull().any()`); the frame always
has a `kpiValue` column in this model. -/
def evaluate_kpi_filter (_kpi_id : Int) (s : KpiSettings) (kpi_data : KFrame) :
    Except PErr Bool :=
  match windowOf s kpi_data with
  | .error e => .error e
  | .ok w =>
    if w.rows.isEmpty then .ok false
    else if w.rows.any (fun r => r.value.isNone) then .ok false
    else evaluate_core s w

end FE2

/-- A logic-tree value as the engine passes it around: a bare `int` leaf
index, or a dict `{'type': 'AND'|'OR'|..., 'children': [...]}`.  (Python
values outside these two shapes hit the fail-closed `else` branches and
never arise from `build_group_logic_tree`.) -/
inductive PyTree where
  | leaf (i : Int)
  | node (ty : String) (children : List PyTree)

/-- Key membership in the `kpi_filter_settings` dictionary. -/
def hasKey (m : List (Int × KpiSettings)) (i : Int) : Bool :=
  m.any (fun p => p.1 = i)

/-- Dictionary lookup in `kpi_filter_settings`. -/
def lookupKey (m : List (Int × KpiSettings)) (i : Int) : Option KpiSettings :=
  (m.find? (fun p => p.1 = i)).map Prod.snd

/-- `stock_kpi_data.get(kpi_name, pd.DataFrame())`: lookup with an empty
frame (no columns) as default. -/
def lookupFrame (skd : List (String × KFrame)) (name : String) : KFrame :=
  ((skd.find? (fun p => p.1 = name)).map Prod.snd).getD ⟨false, []⟩

mutual

/-- `validate_logic_tree` from `kpi_logic.py`: every integer leaf must be a
key of `kpi_filter_settings`; a dict node validates all children. -/
def validate_logic_tree : PyTree → List (Int × KpiSettings) → Bool
  | .leaf i, m => hasKey m i
  | .node _ cs, m => validateChildren cs m

/-- The `for child in tree['children']` loop of `validate_logic_tree`. -/
def validateChildren : List PyTree → List (Int × KpiSettings) → Bool
  | [], _ => true
  | c :: rest, m => validate_logic_tree c m && validateChildren rest m

end

mutual

/-- `evaluate_filter_tree` from `filters/filter_engine.py`: a leaf indexes
`kpi_filter_settings` (KeyError if absent) and evaluates that KPI filter on
the stock's data for the named KPI; `AND`/`OR` nodes short-circuit over
their children; any other node type fails closed. -/
def evaluate_filter_tree : PyTree → List (Int × KpiSettings) →
    List (String × KFrame) → Except PErr Bool
  | .leaf i, m, skd =>
    match lookupKey m i with
    | none => .error .keyError
    | some s => FE2.evaluate_kpi_filter i s (lookupFrame skd s.kpi_name)
  | .node ty cs, m, skd =>
    if ty = "AND" then evalChildrenAnd cs m skd
    else if ty = "OR" then evalChildrenOr cs m skd
    else .ok false

/-- Python `all(...)` over child evaluations: short-circuits on False, so
later children are not evaluated (and cannot raise). -/
def evalChildrenAnd : List PyTree → List (Int × KpiSettings) →
    List (String × KFrame) → Except PErr Bool
  | [], _, _ => .ok true
  | c :: rest, m, skd =>
    match evaluate_filter_tree c m skd with
    | .error e => .error e
    | .ok false => .ok false
    | .ok true => evalChildrenAnd rest m skd

/-- Python `any(...)` over child evaluations: short-circuits on True. -/
def evalChildrenOr : List PyTree → List (Int × KpiSettings) →
    List (String × KFrame) → Except PErr Bool
  | [], _, _ => .ok false
  | c :: rest, m, skd =>
    match evaluate_filter_tree c m skd with
    | .error e => .error e
    | .ok true => .ok true
    | .ok false => evalChildrenOr rest m skd

end

/-- Outcome of the screening phase of `ui_main.main` (lines 167-201):
either the run is refused before any per-stock work (`st.stop()` after a
failed `validate_logic_tree`), or every stock of the universe is evaluated
and the passing ids collected. -/
inductive ScreenOutcome where
  | refused
  | completed (evaluated : List Int) (passed : List Int)
deriving DecidableEq, Repr

/-- Lines 168-169 of `ui_main.main`: a bare int tree is wrapped in an AND
node before validation and evaluation. -/
def wrapTree (tree : PyTree) : PyTree :=
  match tree with
  | .leaf i => .node "AND" [.leaf i]
  | other => other

/-- The screening phase of `ui_main.main`: wrap a bare int tree in an AND
node, refuse the whole run if validation fails, otherwise iterate the full
universe; a per-stock exception is caught and the stock merely excluded.
There is no cancellation probe anywhere in this loop. -/
def runScreening (tree : PyTree) (smap : List (Int × KpiSettings))
    (stock_kpi_data : Int → List (String × KFrame)) (stocks : List Int) :
    ScreenOutcome :=
  let t := wrapTree tree
  if validate_logic_tree t smap then
    .completed stocks (stocks.filter (fun sid =>
      match evaluate_filter_tree t smap (stock_kpi_data sid) with
      | .ok true => true
      | _ => false))
  else .refused

/-- The per-KPI-instance settings inside a group's `filter_settings`:
`methods` is the list of method configs (the tree builder only uses its
length and indices; the entry is the config's `type` tag) and the
instance-local `method_operator`. -/
structure GSettings where
  methods : List String
  method_operator : Option String

/-- One entry of the UI's `filter_groups` list. -/
structure FilterGroup where
  operator : String
  filters : List String
  filter_settings : List (String × GSettings)

/-- `group.get('filter_settings', {}).get(key, {})`. -/
def getGSettings (g : FilterGroup) (key : String) : GSettings :=
  ((g.filter_settings.find? (fun p => p.1 = key)).map Prod.snd).getD ⟨[], none⟩

/-- One entry of the flat `kpi_filters` list (as produced by
`convert_groups_to_old_format`); only the fields the tree builder reads. -/
structure OldFilter where
  kpi : String
  group_id : Option Int
  method_id : Option Int

/-- The repeated search `for old_idx, old_filter in enumerate(kpi_filters)`
with the `kpi == name and group_id == gidx and method_id == mi` condition,
returning the first matching index. -/
def findFilterIdx (kf : List OldFilter) (kpi_name : String) (gidx : Nat)
    (mi : Nat) : Option Nat :=
  kf.findIdx? (fun f => f.kpi = kpi_name && f.group_id = some (gidx : Int) &&
    f.method_id = some (mi : Int))

/-- The `method_indices` collection loop: for each method index, append the
first matching flat index when the inner search finds one. -/
def collectMethodIndices (kf : List OldFilter) (kpi_name : String)
    (gidx : Nat) (cnt : Nat) : List Nat :=
  (List.range cnt).filterMap (fun mi => findFilterIdx kf kpi_name gidx mi)

/-- The inner `for kpi_idx, kpi_name in enumerate(group['filters'])` loop of
the multi-KPI branch of `build_group_logic_tree`.  It threads the OUTER
`group_nodes` list because the source appends multi-method sub-nodes to
`group_nodes` (not to the group's own children) and records
`len(group_nodes) - 1` in `kpi_indices`. -/
def buildKpis (g : FilterGroup) (kf : List OldFilter) (gidx : Nat) :
    List (Nat × String) → List PyTree → List Int → List PyTree × List Int
  | [], acc, kpi_indices => (acc, kpi_indices)
  | (kpi_idx, kpi_name) :: rest, acc, kpi_indices =>
    let key := kpi_name ++ "_" ++ toString kpi_idx
    let ks := getGSettings g key
    if ks.methods.length = 1 then
      match findFilterIdx kf kpi_name gidx 0 with
      | some fi => buildKpis g kf gidx rest acc (kpi_indices ++ [(fi : Int)])
      | none => buildKpis g kf gidx rest acc kpi_indices
    else
      let method_indices := collectMethodIndices kf kpi_name gidx
        ks.methods.length
      if method_indices.isEmpty then buildKpis g kf gidx rest acc kpi_indices
      else
        match method_indices with
        | [mi] => buildKpis g kf gidx rest acc (kpi_indices ++ [(mi : Int)])
        | mis =>
          let sub_node := PyTree.node (ks.method_operator.getD "AND")
            (mis.map (fun mi => PyTree.leaf mi))
          -- group_nodes.append(sub_node); kpi_indices.append(len(group_nodes)-1),
          -- i.e. the position of the sub node in the OUTER list
          buildKpis g kf gidx rest (acc ++ [sub_node])
            (kpi_indices ++ [(acc.length : Int)])

/-- The outer `for group_idx, group in enumerate(filter_groups)` loop of
`build_group_logic_tree`, threading the `group_nodes` accumulator. -/
def buildGroups (kf : List OldFilter) :
    List (Nat × FilterGroup) → List PyTree → List PyTree
  | [], acc => acc
  | (gidx, g) :: rest, acc =>
    if g.filters.isEmpty then buildGroups kf rest acc
    else
      match g.filters with
      | [kpi_name] =>
        let key := kpi_name ++ "_0"
        let ks := getGSettings g key
        if ks.methods.length = 1 then
          let group_node := match findFilterIdx kf kpi_name gidx 0 with
            | some fi => PyTree.leaf fi
            | none => PyTree.leaf gidx
          buildGroups kf rest (acc ++ [group_node])
        else
          let method_indices := collectMethodIndices kf kpi_name gidx
            ks.methods.length
          if method_indices.isEmpty then
            buildGroups kf rest (acc ++ [PyTree.leaf gidx])
          else
            let group_node := PyTree.node (ks.method_operator.getD "AND")
              (method_indices.map (fun mi => PyTree.leaf mi))
            buildGroups kf rest (acc ++ [group_node])
      | _ =>
        let (acc2, kpi_indices) := buildKpis g kf gidx g.filters.enum acc []
        let group_node := match kpi_indices with
          | [] => PyTree.leaf gidx
          | [k] => PyTree.leaf k
          | ks => PyTree.node g.operator (ks.map (fun k => PyTree.leaf k))
        buildGroups kf rest (acc2 ++ [group_node])

/-- `build_group_logic_tree` from `kpi_logic.py` (identical in the
`borsdata` and `refinitiv` copies): build one node per non-empty group and
combine under `group_relationships` when more than one node resulted. -/
def build_group_logic_tree (filter_groups : List FilterGroup)
    (kpi_filters : List OldFilter) (group_relationships : String) :
    Option PyTree :=
  if filter_groups.isEmpty then none
  else
    match buildGroups kpi_filters filter_groups.enum [] with
    | [g] => some g
    | gs => some (PyTree.node group_relationships gs)

/-- Settings with only the absolute filter enabled, using a custom-range
duration with no bounds so that the window is the input frame itself. -/
def absSet (op : String) (t : ℚ) : KpiSettings :=
  { mkSettings with
    abs_enabled := true, abs_operator := some op,
    abs_value := some t, duration_type := "Custom Range" }

/-- Settings with only the direction filter enabled, with the same
identity window. -/
def dirSet (d : String) : KpiSettings :=
  { mkSettings with
    direction_enabled := true, direction := d,
    duration_type := "Custom Range" }

/-- Settings with only the trend filter enabled (the engine then forces a
last-`trend_n` window). -/
def trendSet (ty : String) (n : Int) (m : Option Int) : KpiSettings :=
  { mkSettings with
    trend_enabled := true, trend_type := some ty,
    trend_n := some n, trend_m := m }

/-- Quarterly rows carrying the given values, with strictly increasing
years (so the frame is already sorted by (year, period)). -/
def ascRowsQ : Int → List ℚ → List KRow
  | _, [] => []
  | y, v :: vs => ⟨y, 1, some v⟩ :: ascRowsQ (y + 1) vs

/-- A quarterly frame holding the given values in ascending period order. -/
def ascFrame (vs : List ℚ) : KFrame := ⟨true, ascRowsQ 0 vs⟩

mutual

/-- The integer leaf indices occurring in a logic tree. -/
def leavesOf : PyTree → List Int
  | .leaf i => [i]
  | .node _ cs => leavesOfList cs

/-- Leaf indices of a list of subtrees. -/
def leavesOfList : List PyTree → List Int
  | [] => []
  | c :: rest => leavesOf c ++ leavesOfList rest

end

/-- C1.  The spec's inclusive-range contract for `filter_data_by_time_range`
fails on both copies at the quarterly custom range `2020-Q1 .. 2020-Q2`
applied to a frame whose single row is `(year 2020, period 4)`: the root
copy (`borsdata/filter_engine.py`) returns that out-of-range row, because
its disjunct `start_year == year and period >= start_q` fires even though
the row lies after the end quarter of the same year; the `filters/` copy
raises TypeError, because `int('2020-')` fails inside its
`map(int, s.split('Q'))` bound parsing and the fallback then compares the
year column against None.  The intended inclusive-range semantics is
evident from the spec and from the (unreachable) pandas range predicate of
the `filters/` copy, so this is a code bug, not a spec error. -/
theorem c1_custom_range_code_bug :
    FE1.filter_data_by_time_range ⟨true, [⟨2020, 4, some 1⟩]⟩ "Custom Range"
      none "2020-Q1".toList "2020-Q2".toList =
      .ok ⟨true, [⟨2020, 4, some 1⟩]⟩ ∧
    FE2.filter_data_by_time_range ⟨true, [⟨2020, 4, some 1⟩]⟩ "Custom Range"
      none "2020-Q1".toList "2020-Q2".toList = .error .typeError := by
  constructor
  · decide
  · decide

/-- C2 counterexample.  The claim says the Direction method yields verdict
false on a window with fewer than 2 observations, but on a one-observation
window both engine copies skip the direction check entirely (the guard
`len(kpi_data) >= 2` fails) and fall through to `return True`. -/
theorem c2_single_point_direction_counterexample :
    FE2.evaluate_kpi_filter 0 (dirSet "positive")
      ⟨true, [⟨2020, 1, some 5⟩]⟩ = .ok true ∧
    FE1.evaluate_kpi_filter 0 (dirSet "positive")
      ⟨true, [⟨2020, 1, some 5⟩]⟩ = .ok true := by
  constructor
  · decide
  · decide

/-- C3 counterexample.  The claim includes `=` among the absolute-filter
operators and says a window whose every value equals the threshold passes,
but the operator conditional chain has no `'='` case (`... else False`),
so the absolute filter with `=` fails even on the window `[8]` with
threshold 8. -/
theorem c3_eq_operator_counterexample :
    FE2.evaluate_kpi_filter 0 (absSet "=" 8)
      ⟨true, [⟨2020, 1, some 8⟩]⟩ = .ok false := by
  decide

/-- C4 counterexample.  In the root copy (`borsdata/filter_engine.py`)
there is no missing-value check: a Direction 'positive' leaf whose window
is `[NaN, 5]` (the window equals the input frame here) returns verdict
true, because `5 <= NaN` is False so the rejection branch is never taken. -/
theorem c4_root_copy_nan_counterexample :
    FE1.windowOf (dirSet "positive")
      ⟨true, [⟨2020, 1, none⟩, ⟨2020, 2, some 5⟩]⟩ =
      .ok ⟨true, [⟨2020, 1, none⟩, ⟨2020, 2, some 5⟩]⟩ ∧
    (List.any [(⟨2020, 1, none⟩ : KRow), ⟨2020, 2, some 5⟩]
      (fun r => r.value.isNone)) = true ∧
    FE1.evaluate_kpi_filter 0 (dirSet "positive")
      ⟨true, [⟨2020, 1, none⟩, ⟨2020, 2, some 5⟩]⟩ = .ok true := by
  refine ⟨?_, ?_, ?_⟩
  · decide
  · decide
  · decide

/-- C5 counterexample.  The claim says every string that is not exactly
`'YYYY-Qx'` (including the literal `'Q'` at index 5) yields
`(None, None)`, but the parser never inspects index 5: `'2020-11'` parses
to `(2020, 1)`. -/
theorem c5_q_not_checked_counterexample :
    parse_quarter_string "2020-11".toList = (some 2020, some 1) ∧
    ((some 2020, some 1) : Option Int × Option Int) ≠ (none, none) := by
  constructor
  · decide
  · decide

/-- The single filter group of the C7 failing input: two KPI instances
`A` (two methods, instance operator AND) and `B` (one method). -/
def c7group : FilterGroup :=
  { operator := "AND", filters := ["A", "B"],
    filter_settings := [("A_0", ⟨["Absolute", "Relative"], some "AND"⟩),
      ("B_1", ⟨["Absolute"], none⟩)] }

/-- The flat filter list `convert_groups_to_old_format` produces for
`c7group`: A's two methods at indices 0 and 1, B's method at index 2. -/
def c7filters : List OldFilter :=
  [⟨"A", some 0, some 0⟩, ⟨"A", some 0, some 1⟩, ⟨"B", some 0, some 0⟩]

/-- C7.  In a group with more than one KPI instance, an instance with
multiple methods is NOT attached under its group's node: the built
sub-node `{AND, [0, 1]}` is appended to the top-level `group_nodes` list
and the bogus integer `len(group_nodes) - 1` (here 0, which collides with
leaf index 0) is planted among the group's children.  The expected tree
per the claim would be `AND(AND(0, 1), 2)`; the code instead returns
`AND(AND(0, 1), AND(0, 2))`.  The slip
(`group_nodes.append(sub_node); kpi_indices.append(len(group_nodes)-1)`)
contradicts the builder's evident intent, shown by the single-KPI branch
which does attach the method node in place, so this is a code bug. -/
theorem c7_multi_kpi_group_code_bug :
    build_group_logic_tree [c7group] c7filters "AND" =
      some (.node "AND" [.node "AND" [.leaf 0, .leaf 1],
        .node "AND" [.leaf 0, .leaf 2]]) ∧
    build_group_logic_tree [c7group] c7filters "AND" ≠
      some (.node "AND" [.node "AND" [.leaf 0, .leaf 1], .leaf 2]) := by
  constructor
  · rfl
  · intro h
    rw [show build_group_logic_tree [c7group] c7filters "AND" =
      some (.node "AND" [.node "AND" [.leaf 0, .leaf 1],
        .node "AND" [.leaf 0, .leaf 2]]) from rfl] at h
    simp at h

/-- Settings map, tree, stock data and universe for the C9 and C8
concrete runs: one leaf that every stock passes. -/
def c9settings : List (Int × KpiSettings) := [(0, mkSettings)]

/-- See `c9settings`. -/
def c9tree : PyTree := .node "AND" [.leaf 0]

/-- Every stock has one observation for the KPI named by `mkSettings`. -/
def c9data : Int → List (String × KFrame) :=
  fun _ => [("K", ⟨true, [⟨2020, 1, some 1⟩]⟩)]

/-- A ten-stock universe. -/
def c9stocks : List Int := [1, 2, 3, 4, 5, 6, 7, 8, 9, 10]

/-- C9 counterexample.  The claim says the screening pipeline accepts a
cancellation probe checked between stocks and, if it fires after stock 3
of 10, returns exactly the passing subset of stocks 1-3.  The per-stock
loop of `ui_main.main` has no cancellation probe at all: on this ten-stock
universe it evaluates all ten stocks and returns all ten, which is not the
subset from the first three.  (A `cancel_check` exists only in the batch
fetch helpers of `borsdata_client.py`, where it is consulted at the start
of each (stock, KPI) fetch task inside a thread pool.) -/
theorem c9_no_cancellation_counterexample :
    runScreening c9tree c9settings c9data c9stocks =
      .completed c9stocks c9stocks ∧
    c9stocks.length = 10 ∧ c9stocks.take 3 ≠ c9stocks := by
  refine ⟨?_, ?_, ?_⟩
  · decide
  · decide
  · decide

/-- C10 counterexample.  The two engine copies are not extensionally
equal: on the default settings and a one-row frame whose value is missing,
the root copy (no missing-value check) returns verdict true while the
`filters/` copy returns false. -/
theorem c10_copies_differ_counterexample :
    FE1.evaluate_kpi_filter 0 mkSettings ⟨true, [⟨2020, 1, none⟩]⟩ =
      .ok true ∧
    FE2.evaluate_kpi_filter 0 mkSettings ⟨true, [⟨2020, 1, none⟩]⟩ =
      .ok false ∧
    (Except.ok true : Except PErr Bool) ≠ .ok false := by
  refine ⟨?_, ?_, ?_⟩
  · decide
  · decide
  · decide

mutual

theorem validate_missing : ∀ (t : PyTree) (m : List (Int × KpiSettings))
    (i : Int), i ∈ leavesOf t → hasKey m i = false →
    validate_logic_tree t m = false
  | .leaf j, m, i, hmem, hkey => by
    simp [leavesOf] at hmem
    subst hmem
    simpa [validate_logic_tree] using hkey
  | .node ty cs, m, i, hmem, hkey => by
    simp only [leavesOf] at hmem
    simpa [validate_logic_tree] using
      validateChildren_missing cs m i hmem hkey

theorem validateChildren_missing : ∀ (cs : List PyTree)
    (m : List (Int × KpiSettings)) (i : Int), i ∈ leavesOfList cs →
    hasKey m i = false → validateChildren cs m = false
  | [], _, _, hmem, _ => by simp [leavesOfList] at hmem
  | c :: rest, m, i, hmem, hkey => by
    rw [leavesOfList, List.mem_append] at hmem
    cases hmem with
    | inl h => simp [validateChildren, validate_missing c m i h hkey]
    | inr h =>
      cases hval : validate_logic_tree c m with
      | false => simp [validateChildren, hval]
      | true =>
        simp [validateChildren, hval,
          validateChildren_missing rest m i h hkey]

end

theorem leavesOf_wrapTree (t : PyTree) : leavesOf (wrapTree t) = leavesOf t := by
  cases t <;> simp [wrapTree, leavesOf, leavesOfList]

/-- C8.  If the logic tree contains an integer leaf whose index is not a
key of the leaf-settings map, `validate_logic_tree` returns False, and the
screening phase of `ui_main.main` then refuses the whole run (`st.stop()`)
before any per-stock evaluation: `runScreening` yields `refused`, which
performs and records no per-stock evaluation. -/
theorem c8_validate_refuses (tree : PyTree) (smap : List (Int × KpiSettings))
    (skd : Int → List (String × KFrame)) (stocks : List Int) (i : Int)
    (hleaf : i ∈ leavesOf tree) (hmiss : hasKey smap i = false) :
    validate_logic_tree tree smap = false ∧
    runScreening tree smap skd stocks = .refused := by
  refine ⟨validate_missing tree smap i hleaf hmiss, ?_⟩
  have hv : validate_logic_tree (wrapTree tree) smap = false :=
    validate_missing (wrapTree tree) smap i
      (by rw [leavesOf_wrapTree]; exact hleaf) hmiss
  simp [runScreening, hv]

/-- C8 witness: the tree `AND(leaf 5)` over a settings map whose only key
is 0 is rejected and the ten-stock run is refused. -/
theorem c8_validate_refuses_witness :
    validate_logic_tree (.node "AND" [.leaf 5]) c9settings = false ∧
    runScreening (.node "AND" [.leaf 5]) c9settings c9data c9stocks =
      .refused :=
  c8_validate_refuses (.node "AND" [.leaf 5]) c9settings c9data c9stocks 5
    (by decide) (by decide)

/-- C9 amended.  The screening loop supports no cancellation at all:
whenever validation passes, every stock of the universe is evaluated and
the run completes over the full universe; partial evaluation is
impossible. -/
theorem c9_full_universe_amended (tree : PyTree)
    (smap : List (Int × KpiSettings)) (skd : Int → List (String × KFrame))
    (stocks : List Int)
    (hval : validate_logic_tree (wrapTree tree) smap = true) :
    ∃ passed, runScreening tree smap skd stocks =
      .completed stocks passed :=
  ⟨_, by simp only [runScreening, hval, if_true]; rfl⟩

/-- C9 witness for the amended statement, at the concrete ten-stock run. -/
theorem c9_full_universe_amended_witness :
    ∃ passed, runScreening c9tree c9settings c9data c9stocks =
      .completed c9stocks passed :=
  c9_full_universe_amended c9tree c9settings c9data c9stocks (by decide)

/-- C4 amended.  In the `filters/` engine copy the claim holds: whenever
the windowed frame contains a missing value, the leaf evaluation returns
verdict false, whatever method is configured (the check runs before any
method dispatch).  The root copy lacks this check (see the
counterexample). -/
theorem c4_missing_value_amended (s : KpiSettings) (d w : KFrame)
    (hwin : FE2.windowOf s d = .ok w)
    (hnan : w.rows.any (fun r => r.value.isNone) = true) :
    FE2.evaluate_kpi_filter 0 s d = .ok false := by
  rw [FE2.evaluate_kpi_filter, hwin]
  have hne : w.rows.isEmpty = false := by
    cases hr : w.rows with
    | nil => rw [hr] at hnan; simp [List.any] at hnan
    | cons a l => simp [hr]
  simp [hne, hnan]

/-- C4 amended witness: a direction leaf over the window `[NaN, 5]`. -/
theorem c4_missing_value_amended_witness :
    FE2.evaluate_kpi_filter 0 (dirSet "positive")
      ⟨true, [⟨2020, 1, none⟩, ⟨2020, 2, some 5⟩]⟩ = .ok false :=
  c4_missing_value_amended (dirSet "positive")
    ⟨true, [⟨2020, 1, none⟩, ⟨2020, 2, some 5⟩]⟩
    ⟨true, [⟨2020, 1, none⟩, ⟨2020, 2, some 5⟩]⟩ (by decide) (by decide)

theorem window_lastn_eq (d : KFrame) (ln : Option Int)
    (sq eq : List Char) :
    FE1.filter_data_by_time_range d "Last N Quarters" ln sq eq =
    FE2.filter_data_by_time_range d "Last N Quarters" ln sq eq := by
  rw [FE1.filter_data_by_time_range.eq_def, FE2.filter_data_by_time_range.eq_def]
  cases hd : d.rows.isEmpty with
  | true => simp [hd]
  | false =>
    simp only [hd]
    cases ln with
    | none => simp [hd]
    | some k =>
      by_cases hk : 0 < k <;> simp [hk, hd]

theorem windowOf_eq (s : KpiSettings) (d : KFrame)
    (hdur : s.duration_type = "Last N Quarters") :
    FE1.windowOf s d = FE2.windowOf s d := by
  rw [FE1.windowOf, FE2.windowOf]
  cases ht : s.trend_enabled with
  | true => simp [ht, window_lastn_eq]
  | false => simp [ht, hdur, window_lastn_eq]

theorem window_lastn_cases (d : KFrame) (ln : Option Int)
    (sq eq : List Char) :
    FE2.filter_data_by_time_range d "Last N Quarters" ln sq eq = .ok d ∨
    (∃ k, FE2.filter_data_by_time_range d "Last N Quarters" ln sq eq =
      .ok { d with rows := pyTail k d.rows }) := by
  cases hd : d.rows.isEmpty with
  | true =>
    left
    rw [FE2.filter_data_by_time_range.eq_def]
    simp [hd]
  | false =>
    right
    cases ln with
    | none =>
      refine ⟨1, ?_⟩
      rw [FE2.filter_data_by_time_range.eq_def]
      simp [hd]
    | some k =>
      by_cases hk : 0 < k
      · refine ⟨k, ?_⟩
        rw [FE2.filter_data_by_time_range.eq_def]
        simp [hd, hk]
      · refine ⟨1, ?_⟩
        rw [FE2.filter_data_by_time_range.eq_def]
        simp [hd, hk]

theorem window_lastn_rows_sub (d : KFrame) (ln : Option Int)
    (sq eq : List Char) (w : KFrame)
    (hw : FE2.filter_data_by_time_range d "Last N Quarters" ln sq eq = .ok w) :
    ∀ r ∈ w.rows, r ∈ d.rows := by
  have hdrop : ∀ (k : Int), ∀ r ∈ pyTail k d.rows, r ∈ d.rows := by
    intro k r hr
    rw [pyTail] at hr
    by_cases h0 : (0 : Int) ≤ k
    · rw [if_pos h0] at hr
      exact List.mem_of_mem_drop hr
    · rw [if_neg h0] at hr
      exact List.mem_of_mem_drop hr
  rcases window_lastn_cases d ln sq eq with h | ⟨k, h⟩
  · rw [h] at hw
    injection hw with h'
    subst h'
    intro r hr
    exact hr
  · rw [h] at hw
    injection hw with h'
    subst h'
    intro r hr
    exact hdrop k r hr

/-- C10 amended.  The Last-N path of the two copies is extensionally
equal, and (since the method logic after the missing-value check is
verbatim identical) the two `evaluate_kpi_filter` copies agree on every
Last-N-duration leaf whose input frame has no missing values.  The copies
genuinely differ on missing values and on custom ranges (see the
counterexample and C1). -/
theorem c10_lastn_no_missing_agree (s : KpiSettings) (d : KFrame)
    (hdur : s.duration_type = "Last N Quarters")
    (hnomiss : ∀ r ∈ d.rows, r.value.isNone = false) :
    FE1.evaluate_kpi_filter 0 s d = FE2.evaluate_kpi_filter 0 s d := by
  rw [FE1.evaluate_kpi_filter, FE2.evaluate_kpi_filter, windowOf_eq s d hdur]
  cases hw : FE2.windowOf s d with
  | error e => rfl
  | ok w =>
    have hsub : ∀ r ∈ w.rows, r ∈ d.rows := by
      rw [FE2.windowOf] at hw
      cases ht : s.trend_enabled with
      | true =>
        rw [ht] at hw
        simp only [if_true] at hw
        exact window_lastn_rows_sub d _ _ _ w hw
      | false =>
        rw [ht] at hw
        simp only [Bool.false_eq_true, if_false] at hw
        rw [hdur] at hw
        exact window_lastn_rows_sub d _ _ _ w hw
    have hany : w.rows.any (fun r => r.value.isNone) = false := by
      rw [List.any_eq_false]
      intro r hr
      simp [hnomiss r (hsub r hr)]
    cases he : w.rows.isEmpty with
    | true => simp [he]
    | false => simp [he, hany]

/-- C10 amended witness at a concrete Last-N leaf. -/
theorem c10_lastn_no_missing_agree_witness :
    FE1.evaluate_kpi_filter 0 mkSettings ⟨true, [⟨2020, 1, some 1⟩]⟩ =
    FE2.evaluate_kpi_filter 0 mkSettings ⟨true, [⟨2020, 1, some 1⟩]⟩ :=
  c10_lastn_no_missing_agree mkSettings ⟨true, [⟨2020, 1, some 1⟩]⟩
    (by rfl) (by decide)

theorem ascRowsQ_nil_iff (y : Int) (vs : List ℚ) :
    (ascRowsQ y vs).isEmpty = vs.isEmpty := by
  cases vs <;> simp [ascRowsQ]

theorem ascRowsQ_no_null (y : Int) (vs : List ℚ) :
    (ascRowsQ y vs).any (fun r => r.value.isNone) = false := by
  induction vs generalizing y with
  | nil => simp [ascRowsQ]
  | cons v rest ih => simp [ascRowsQ, ih]

theorem ascRowsQ_values (y : Int) (vs : List ℚ) :
    (ascRowsQ y vs).map (fun r => r.value) = vs.map some := by
  induction vs generalizing y with
  | nil => simp [ascRowsQ]
  | cons v rest ih => simp [ascRowsQ, ih]

theorem FE2_eval_on_ascFrame (s : KpiSettings) (vs : List ℚ)
    (h1 : s.trend_enabled = false) (h2 : s.duration_type = "Custom Range")
    (h3 : s.start_quarter = none) (h4 : s.end_quarter = none)
    (h5 : vs ≠ []) :
    FE2.evaluate_kpi_filter 0 s (ascFrame vs) = evaluate_core s (ascFrame vs) := by
  have hne : (ascFrame vs).rows.isEmpty = false := by
    rw [ascFrame]
    rw [ascRowsQ_nil_iff]
    simpa using h5
  have hwin : FE2.windowOf s (ascFrame vs) = .ok (ascFrame vs) := by
    rw [FE2.windowOf, h1]
    simp only [Bool.false_eq_true, if_false]
    rw [h2, h3, h4, FE2.filter_data_by_time_range.eq_def]
    simp [hne]
  rw [FE2.evaluate_kpi_filter, hwin]
  simp only [ascFrame] at hne
  simp [ascFrame, hne, ascRowsQ_no_null]

theorem FE2_eval_ascFrame_nil (s : KpiSettings) :
    FE2.evaluate_kpi_filter 0 s (ascFrame []) = .ok false := by
  have hwin : FE2.windowOf s (ascFrame []) = .ok (ascFrame []) := by
    cases ht : s.trend_enabled <;>
      simp [FE2.windowOf, ht, FE2.filter_data_by_time_range.eq_def,
        ascFrame, ascRowsQ]
  rw [FE2.evaluate_kpi_filter, hwin]
  simp [ascFrame, ascRowsQ]

theorem ascRowsQ_length (y : Int) (vs : List ℚ) :
    (ascRowsQ y vs).length = vs.length := by
  induction vs generalizing y with
  | nil => rfl
  | cons v rest ih => simp [ascRowsQ, ih]

theorem insertRow_asc (y : Int) (v : ℚ) (vs : List ℚ) :
    insertRow rowLeYP ⟨y, 1, some v⟩ (ascRowsQ (y + 1) vs) =
      ⟨y, 1, some v⟩ :: ascRowsQ (y + 1) vs := by
  cases vs with
  | nil => rfl
  | cons w ws =>
    have hle : rowLeYP ⟨y, 1, some v⟩ ⟨y + 1, 1, some w⟩ = true := by
      simp [rowLeYP]
    simp [ascRowsQ, insertRow, hle]

theorem sortRows_asc (y : Int) (vs : List ℚ) :
    sortRowsBy rowLeYP (ascRowsQ y vs) = ascRowsQ y vs := by
  induction vs generalizing y with
  | nil => rfl
  | cons v rest ih =>
    rw [ascRowsQ, sortRowsBy, ih (y + 1)]
    exact insertRow_asc y v rest

theorem ascRowsQ_getLast_value (y : Int) (v : ℚ) (vs : List ℚ) (d0 : KRow) :
    ((ascRowsQ y (v :: vs)).getLastD d0).value = some (vs.getLastD v) := by
  induction vs generalizing y v d0 with
  | nil => rfl
  | cons w ws ih =>
    rw [show ascRowsQ y (v :: w :: ws) =
      (⟨y, 1, some v⟩ : KRow) :: ascRowsQ (y + 1) (w :: ws) from rfl]
    rw [List.getLastD_cons, List.getLastD_cons]
    exact ih (y + 1) w ⟨y, 1, some v⟩

theorem ascRowsQ_headD (y : Int) (v : ℚ) (vs : List ℚ) (d0 : KRow) :
    (ascRowsQ y (v :: vs)).headD d0 = ⟨y, 1, some v⟩ := rfl

theorem eval_core_dirSet (d : String) (w : KFrame) :
    evaluate_core (dirSet d) w = .ok (dirBlock (dirSet d) w) := by
  rw [evaluate_core]
  simp [dirSet, mkSettings]

theorem dirBlock_asc (d : String) (v w2 : ℚ) (ws : List ℚ) :
    dirBlock (dirSet d) (ascFrame (v :: w2 :: ws)) =
      (if d = "positive" && vle (some ((w2 :: ws).getLastD v)) (some v)
       then false
       else if d = "negative" && vge (some ((w2 :: ws).getLastD v)) (some v)
       then false else true) := by
  have hsort := sortRows_asc 0 (v :: w2 :: ws)
  have hlast := ascRowsQ_getLast_value 0 v (w2 :: ws) (⟨0, 0, none⟩ : KRow)
  have hlen : (ascRowsQ 0 (v :: w2 :: ws)).length = ws.length + 2 := by
    rw [ascRowsQ_length]; simp
  have hne : (ascRowsQ 0 (v :: w2 :: ws)).isEmpty = false := by
    rw [ascRowsQ_nil_iff]; simp
  have hlast2 : ((ascRowsQ 0 (v :: w2 :: ws)).getLast?.getD
      (⟨0, 0, none⟩ : KRow)).value = some ((w2 :: ws).getLast?.getD v) := by
    rw [← List.getLastD_eq_getLast?, ← List.getLastD_eq_getLast?]
    exact hlast
  have hhead2 : ((ascRowsQ 0 (v :: w2 :: ws)).head?.getD
      (⟨0, 0, none⟩ : KRow)).value = some v := by
    rw [← List.headD_eq_head?]
    rfl
  simp only [dirBlock, dirSet, mkSettings, ascFrame, hsort, hlast, hlen, hne,
    ascRowsQ_headD]
  simp
  rw [hlast2, hhead2]

/-- C2 amended.  The Direction method: an empty window yields false (the
empty-window check), but a ONE-observation window yields true — the
direction comparison is guarded by `len(kpi_data) >= 2` and the function
falls through to `return True`.  With at least two observations (frame
ascending by (year, period)) `positive` is true exactly when the last
value strictly exceeds the first, `negative` exactly when it is strictly
smaller, and `either` is always true; in particular `positive` on `[5, 5]`
is false. -/
theorem c2_direction_amended :
    (∀ d : String,
      FE2.evaluate_kpi_filter 0 (dirSet d) (ascFrame []) = .ok false) ∧
    (∀ (d : String) (v : ℚ),
      FE2.evaluate_kpi_filter 0 (dirSet d) (ascFrame [v]) = .ok true) ∧
    (∀ (v : ℚ) (vs : List ℚ), vs ≠ [] →
      FE2.evaluate_kpi_filter 0 (dirSet "positive") (ascFrame (v :: vs)) =
        .ok (decide (v < vs.getLastD v)) ∧
      FE2.evaluate_kpi_filter 0 (dirSet "negative") (ascFrame (v :: vs)) =
        .ok (decide (vs.getLastD v < v)) ∧
      FE2.evaluate_kpi_filter 0 (dirSet "either") (ascFrame (v :: vs)) =
        .ok true) ∧
    FE2.evaluate_kpi_filter 0 (dirSet "positive") (ascFrame [5, 5]) =
      .ok false := by
  refine ⟨fun d => FE2_eval_ascFrame_nil (dirSet d), ?_, ?_, by decide⟩
  · intro d v
    rw [FE2_eval_on_ascFrame (dirSet d) [v] rfl rfl rfl rfl (by simp),
      eval_core_dirSet]
    simp [dirBlock, dirSet, mkSettings, ascFrame, ascRowsQ]
  · intro v vs hne
    cases vs with
    | nil => exact absurd rfl hne
    | cons w2 ws =>
      refine ⟨?_, ?_, ?_⟩
      · rw [FE2_eval_on_ascFrame (dirSet "positive") (v :: w2 :: ws)
          rfl rfl rfl rfl (by simp), eval_core_dirSet, dirBlock_asc]
        by_cases h : (w2 :: ws).getLastD v ≤ v
        · have h2 : ¬ (v < (w2 :: ws).getLastD v) := not_lt.mpr h
          simp [vle, ← List.getLastD_eq_getLast?, h, h2]
        · have h2 : v < (w2 :: ws).getLastD v := lt_of_not_ge h
          simp [vle, ← List.getLastD_eq_getLast?, h, h2]
      · rw [FE2_eval_on_ascFrame (dirSet "negative") (v :: w2 :: ws)
          rfl rfl rfl rfl (by simp), eval_core_dirSet, dirBlock_asc]
        by_cases h : v ≤ (w2 :: ws).getLastD v
        · have h2 : ¬ ((w2 :: ws).getLastD v < v) := not_lt.mpr h
          simp [vge, ← List.getLastD_eq_getLast?, h, h2]
        · have h2 : (w2 :: ws).getLastD v < v := lt_of_not_ge h
          simp [vge, ← List.getLastD_eq_getLast?, h, h2]
      · rw [FE2_eval_on_ascFrame (dirSet "either") (v :: w2 :: ws)
          rfl rfl rfl rfl (by simp), eval_core_dirSet, dirBlock_asc]
        simp

/-- C2 amended witness: `positive` over the two-point window `[1, 2]`. -/
theorem c2_direction_amended_witness :
    FE2.evaluate_kpi_filter 0 (dirSet "positive") (ascFrame [1, 2]) =
      .ok (decide ((1 : ℚ) < ([2] : List ℚ).getLastD 1)) :=
  (c2_direction_amended.2.2.1 1 [2] (by simp)).1

theorem absAll_pointwise (op : Option String) (t : ℚ) (P : ℚ → Prop)
    [DecidablePred P]
    (h : ∀ v : ℚ, absCmp op (some v) (some t) = .ok (decide (P v))) :
    ∀ vs : List ℚ, absAll op (some t) (vs.map some) =
      .ok (decide (∀ v ∈ vs, P v))
  | [] => by simp [absAll]
  | v :: rest => by
    rw [List.map_cons, absAll, h v]
    cases hd : decide (P v) with
    | true =>
      have hv : P v := of_decide_eq_true hd
      rw [absAll_pointwise op t P h rest]
      simp [List.forall_mem_cons, hv]
    | false =>
      have hv : ¬ P v := of_decide_eq_false hd
      simp [List.forall_mem_cons, hv]

theorem eval_core_absSet (op : String) (t : ℚ) (w : KFrame)
    (hne : w.rows.isEmpty = false) :
    evaluate_core (absSet op t) w =
      absAll (some op) (some t) (w.rows.map (fun r => r.value)) := by
  rw [evaluate_core]
  have hblock : absBlock (absSet op t) w =
      absAll (some op) (some t) (w.rows.map (fun r => r.value)) := by
    rw [absBlock]
    simp [absSet, mkSettings, hne]
  rw [show (if (absSet op t).abs_enabled then absBlock (absSet op t) w
    else .ok true) = absBlock (absSet op t) w from by simp [absSet, mkSettings]]
  rw [hblock]
  cases habs : absAll (some op) (some t) (w.rows.map (fun r => r.value)) with
  | error e => rfl
  | ok b =>
    cases b with
    | true => simp [absSet, mkSettings, dirBlock]
    | false => rfl

/-- C3 amended.  The absolute filter with operator in `{>, >=, <, <=}`
passes exactly when the window is non-empty and every value satisfies the
comparison against the threshold (empty window fails); but the operator
`=` — although listed by the spec — has no case in the conditional chain
(`... else False`) and therefore never passes, whatever the window.  The
literal examples: `[10, 12, 9]` with `>` passes threshold 8 and fails
threshold 11. -/
theorem c3_absolute_amended :
    (∀ (t : ℚ) (vs : List ℚ),
      FE2.evaluate_kpi_filter 0 (absSet ">" t) (ascFrame vs) =
        .ok (decide (vs ≠ [] ∧ ∀ v ∈ vs, v > t)) ∧
      FE2.evaluate_kpi_filter 0 (absSet ">=" t) (ascFrame vs) =
        .ok (decide (vs ≠ [] ∧ ∀ v ∈ vs, v ≥ t)) ∧
      FE2.evaluate_kpi_filter 0 (absSet "<" t) (ascFrame vs) =
        .ok (decide (vs ≠ [] ∧ ∀ v ∈ vs, v < t)) ∧
      FE2.evaluate_kpi_filter 0 (absSet "<=" t) (ascFrame vs) =
        .ok (decide (vs ≠ [] ∧ ∀ v ∈ vs, v ≤ t)) ∧
      FE2.evaluate_kpi_filter 0 (absSet "=" t) (ascFrame vs) = .ok false) ∧
    FE2.evaluate_kpi_filter 0 (absSet ">" 8) (ascFrame [10, 12, 9]) =
      .ok true ∧
    FE2.evaluate_kpi_filter 0 (absSet ">" 11) (ascFrame [10, 12, 9]) =
      .ok false := by
  have key : ∀ (op : String) (t : ℚ) (P : ℚ → Prop) (_ : DecidablePred P),
      (∀ v : ℚ, absCmp (some op) (some v) (some t) = .ok (decide (P v))) →
      ∀ vs : List ℚ,
        FE2.evaluate_kpi_filter 0 (absSet op t) (ascFrame vs) =
          .ok (decide (vs ≠ [] ∧ ∀ v ∈ vs, P v)) := by
    intro op t P hP h vs
    cases vs with
    | nil =>
      rw [FE2_eval_ascFrame_nil]
      simp
    | cons v rest =>
      rw [FE2_eval_on_ascFrame (absSet op t) (v :: rest) rfl rfl rfl rfl
        (by simp), eval_core_absSet op t _ (by
          rw [ascFrame, ascRowsQ_nil_iff]; simp)]
      rw [show (ascFrame (v :: rest)).rows.map (fun r => r.value) =
        ((v :: rest).map some) from ascRowsQ_values 0 (v :: rest)]
      rw [absAll_pointwise (some op) t P h (v :: rest)]
      simp
  refine ⟨?_, ?_, ?_⟩
  · intro t vs
    refine ⟨key ">" t (fun v => v > t) (fun _ => inferInstance)
        (fun v => rfl) vs,
      key ">=" t (fun v => v ≥ t) (fun _ => inferInstance)
        (fun v => rfl) vs,
      key "<" t (fun v => v < t) (fun _ => inferInstance)
        (fun v => rfl) vs,
      key "<=" t (fun v => v ≤ t) (fun _ => inferInstance)
        (fun v => rfl) vs, ?_⟩
    cases vs with
    | nil => exact FE2_eval_ascFrame_nil (absSet "=" t)
    | cons v rest =>
      rw [FE2_eval_on_ascFrame (absSet "=" t) (v :: rest) rfl rfl rfl rfl
        (by simp), eval_core_absSet "=" t _ (by
          rw [ascFrame, ascRowsQ_nil_iff]; simp)]
      rw [show (ascFrame (v :: rest)).rows.map (fun r => r.value) =
        ((v :: rest).map some) from ascRowsQ_values 0 (v :: rest)]
      rw [List.map_cons, absAll]
      simp [absCmp]
  · decide
  · decide

/-- C3 amended witness: window `[10, 12, 9]`, operator `>`, threshold 8. -/
theorem c3_absolute_amended_witness :
    FE2.evaluate_kpi_filter 0 (absSet ">" 8) (ascFrame [10, 12, 9]) =
      .ok (decide ((([10, 12, 9] : List ℚ) ≠ []) ∧
        ∀ v ∈ ([10, 12, 9] : List ℚ), v > 8)) :=
  (c3_absolute_amended.1 8 [10, 12, 9]).1

theorem consecAll_map_gt : ∀ xs : List ℚ,
    consecAll (fun next prev => vgt next prev) (xs.map some) =
      decide (List.Chain' (· < ·) xs)
  | [] => by simp [consecAll]
  | [x] => by simp [consecAll]
  | x :: y :: rest => by
    rw [List.map_cons, List.map_cons, consecAll]
    rw [show some y :: rest.map some = (y :: rest).map some from rfl,
      consecAll_map_gt (y :: rest)]
    simp [vgt, List.chain'_cons]

theorem consecAll_map_lt : ∀ xs : List ℚ,
    consecAll (fun next prev => vlt next prev) (xs.map some) =
      decide (List.Chain' (· > ·) xs)
  | [] => by simp [consecAll]
  | [x] => by simp [consecAll]
  | x :: y :: rest => by
    rw [List.map_cons, List.map_cons, consecAll]
    rw [show some y :: rest.map some = (y :: rest).map some from rfl,
      consecAll_map_lt (y :: rest)]
    simp [vlt, List.chain'_cons]

theorem getD_map_some (L : List ℚ) (j : Nat) (h : j < L.length) :
    (L.map some).getD j none = some (L.getD j 0) := by
  rw [List.getD_eq_getElem?_getD, List.getD_eq_getElem?_getD]
  rw [List.getElem?_map]
  rw [List.getElem?_eq_getElem h]
  rfl

theorem posToNegSearch_iff (L : List ℚ) (m : Nat) (hm : 0 < m) :
    (posToNegSearch (L.map some) m = true ↔
      ∃ i, i + m < L.length ∧
        List.Chain' (· < ·) ((L.drop i).take m) ∧
        L.getD (i + m) 0 < L.getD (i + m - 1) 0) := by
  rw [posToNegSearch, List.any_eq_true]
  simp only [List.length_map, List.mem_range, Bool.and_eq_true,
    decide_eq_true_eq]
  constructor
  · rintro ⟨i, hi, hshape, him, hcmp⟩
    refine ⟨i, him, ?_, ?_⟩
    · rw [← List.map_drop, ← List.map_take, consecAll_map_gt] at hshape
      exact of_decide_eq_true hshape
    · rw [getD_map_some L (i + m) him,
        getD_map_some L (i + m - 1) (by omega)] at hcmp
      simpa [vlt] using hcmp
  · rintro ⟨i, him, hchain, hcmp⟩
    refine ⟨i, by omega, ?_, him, ?_⟩
    · rw [← List.map_drop, ← List.map_take, consecAll_map_gt]
      exact decide_eq_true hchain
    · rw [getD_map_some L (i + m) him,
        getD_map_some L (i + m - 1) (by omega)]
      simpa [vlt] using hcmp

theorem negToPosSearch_iff (L : List ℚ) (m : Nat) (hm : 0 < m) :
    (negToPosSearch (L.map some) m = true ↔
      ∃ i, i + m < L.length ∧
        List.Chain' (· > ·) ((L.drop i).take m) ∧
        L.getD (i + m - 1) 0 < L.getD (i + m) 0) := by
  rw [negToPosSearch, List.any_eq_true]
  simp only [List.length_map, List.mem_range, Bool.and_eq_true,
    decide_eq_true_eq]
  constructor
  · rintro ⟨i, hi, hshape, him, hcmp⟩
    refine ⟨i, him, ?_, ?_⟩
    · rw [← List.map_drop, ← List.map_take, consecAll_map_lt] at hshape
      exact of_decide_eq_true hshape
    · rw [getD_map_some L (i + m) him,
        getD_map_some L (i + m - 1) (by omega)] at hcmp
      simpa [vgt] using hcmp
  · rintro ⟨i, him, hchain, hcmp⟩
    refine ⟨i, by omega, ?_, him, ?_⟩
    · rw [← List.map_drop, ← List.map_take, consecAll_map_lt]
      exact decide_eq_true hchain
    · rw [getD_map_some L (i + m) him,
        getD_map_some L (i + m - 1) (by omega)]
      simpa [vgt] using hcmp

theorem posToNegCross_iff (L : List ℚ) :
    (posToNegCross (L.map some) = true ↔
      ∃ i, i + 1 < L.length ∧ 0 < L.getD i 0 ∧ L.getD (i + 1) 0 ≤ 0) := by
  rw [posToNegCross, List.any_eq_true]
  simp only [List.length_map, List.mem_range, Bool.and_eq_true]
  constructor
  · rintro ⟨i, hi, h1, h2⟩
    have hi' : i + 1 < L.length := by omega
    rw [getD_map_some L i (by omega)] at h1
    rw [getD_map_some L (i + 1) hi'] at h2
    exact ⟨i, hi', by simpa [vgt] using h1, by simpa [vle] using h2⟩
  · rintro ⟨i, hi, h1, h2⟩
    refine ⟨i, by omega, ?_, ?_⟩
    · rw [getD_map_some L i (by omega)]
      simpa [vgt] using h1
    · rw [getD_map_some L (i + 1) (by omega)]
      simpa [vle] using h2

theorem negToPosCross_iff (L : List ℚ) :
    (negToPosCross (L.map some) = true ↔
      ∃ i, i + 1 < L.length ∧ L.getD i 0 < 0 ∧ 0 ≤ L.getD (i + 1) 0) := by
  rw [negToPosCross, List.any_eq_true]
  simp only [List.length_map, List.mem_range, Bool.and_eq_true]
  constructor
  · rintro ⟨i, hi, h1, h2⟩
    have hi' : i + 1 < L.length := by omega
    rw [getD_map_some L i (by omega)] at h1
    rw [getD_map_some L (i + 1) hi'] at h2
    exact ⟨i, hi', by simpa [vlt] using h1, by simpa [vge] using h2⟩
  · rintro ⟨i, hi, h1, h2⟩
    refine ⟨i, by omega, ?_, ?_⟩
    · rw [getD_map_some L i (by omega)]
      simpa [vlt] using h1
    · rw [getD_map_some L (i + 1) (by omega)]
      simpa [vge] using h2

theorem trend_windowOf (ty : String) (n : Nat) (m : Option Int)
    (vs : List ℚ) (hn : 0 < n) (hvs : vs ≠ []) :
    FE2.windowOf (trendSet ty (n : Int) m) (ascFrame vs) =
      .ok ⟨true, (ascRowsQ 0 vs).drop (vs.length - n)⟩ := by
  rw [FE2.windowOf]
  rw [show (trendSet ty (n : Int) m).trend_enabled = true from rfl]
  simp only [if_true]
  have hne : (ascFrame vs).rows.isEmpty = false := by
    rw [ascFrame, ascRowsQ_nil_iff]
    simpa using hvs
  have hn0 : ((n : Int) = 0) = False := by
    simp
    omega
  have hpy : pyOrOne (trendSet ty (n : Int) m).trend_n = (n : Int) := by
    rw [show (trendSet ty (n : Int) m).trend_n = some (n : Int) from rfl,
      pyOrOne]
    simp [hn0]
  rw [hpy, FE2.filter_data_by_time_range.eq_def]
  have hpos : (0 : Int) < (n : Int) := by omega
  simp only [hne, Bool.false_eq_true, if_false, if_true, hpos]
  rw [pyTail, if_pos (by omega : (0 : Int) ≤ (n : Int))]
  rw [ascFrame]
  simp [ascRowsQ_length]

theorem drop_no_null (vs : List ℚ) (k : Nat) :
    ((ascRowsQ 0 vs).drop k).any (fun r => r.value.isNone) = false := by
  rw [List.any_eq_false]
  intro r hr
  have hmem : r ∈ ascRowsQ 0 vs := List.mem_of_mem_drop hr
  have := ascRowsQ_no_null 0 vs
  rw [List.any_eq_false] at this
  exact this r hmem

theorem trend_window_values (vs : List ℚ) (k : Nat) :
    ((ascRowsQ 0 vs).drop k).map (fun r => r.value) =
      (vs.drop k).map some := by
  rw [List.map_drop, ascRowsQ_values, ← List.map_drop]

theorem eval_trendSet (ty : String) (n : Nat) (m : Option Int)
    (vs : List ℚ) (hn : 0 < n) (hlen : n ≤ vs.length) :
    FE2.evaluate_kpi_filter 0 (trendSet ty (n : Int) m) (ascFrame vs) =
      match (if (trendSet ty (n : Int) m).trend_enabled then
          trendBlock (trendSet ty (n : Int) m)
            ⟨true, (ascRowsQ 0 vs).drop (vs.length - n)⟩
        else .ok none) with
      | .error e => .error e
      | .ok (some b) => .ok b
      | .ok none => .ok (dirBlock (trendSet ty (n : Int) m)
          ⟨true, (ascRowsQ 0 vs).drop (vs.length - n)⟩) := by
  have hvs : vs ≠ [] := by
    intro h
    rw [h] at hlen
    simp at hlen
    omega
  rw [FE2.evaluate_kpi_filter,
    trend_windowOf ty n m vs hn hvs]
  have hwlen : ((ascRowsQ 0 vs).drop (vs.length - n)).length = n := by
    rw [List.length_drop, ascRowsQ_length]
    omega
  have hne : ((ascRowsQ 0 vs).drop (vs.length - n)).isEmpty = false := by
    rcases h : (ascRowsQ 0 vs).drop (vs.length - n) with _ | ⟨a, l⟩
    · rw [h] at hwlen
      simp at hwlen
      omega
    · rfl
  simp only [hne, Bool.false_eq_true, if_false,
    drop_no_null vs (vs.length - n)]
  rw [evaluate_core]
  rw [show (if (trendSet ty (n : Int) m).abs_enabled then
    absBlock (trendSet ty (n : Int) m)
      ⟨true, (ascRowsQ 0 vs).drop (vs.length - n)⟩
    else .ok true) = .ok true from rfl]
  rw [show (trendSet ty (n : Int) m).rel_enabled = false from rfl]
  simp only [Bool.false_eq_true, if_false]

theorem trendBlock_reduce (ty : String) (n : Nat) (m : Option Int)
    (vs : List ℚ) (hn : 0 < n) (hlen : n ≤ vs.length) :
    trendBlock (trendSet ty (n : Int) m)
        ⟨true, (ascRowsQ 0 vs).drop (vs.length - n)⟩ =
      (let vals := (vs.drop (vs.length - n)).map some
       if ty = "Positive" then
         .ok (some (consecAll (fun next prev => vgt next prev) vals))
       else if ty = "Negative" then
         .ok (some (consecAll (fun next prev => vlt next prev) vals))
       else if ty = "Positive-to-Negative" then
         .ok (some (trendPosToNeg vals m))
       else if ty = "Negative-to-Positive" then
         .ok (some (trendNegToPos vals m))
       else .ok none) := by
  rw [trendBlock]
  have hwlen : ((ascRowsQ 0 vs).drop (vs.length - n)).length = n := by
    rw [List.length_drop, ascRowsQ_length]
    omega
  rw [show (trendSet ty (n : Int) m).trend_n = some (n : Int) from rfl]
  have hnotlt : ((((ascRowsQ 0 vs).drop (vs.length - n)).length : Int) <
      (n : Int)) = False := by
    rw [hwlen]
    simp
  simp only [hnotlt, if_false]
  have hvals : (pyTail (n : Int) ((ascRowsQ 0 vs).drop (vs.length - n))).map
      (fun r => r.value) = (vs.drop (vs.length - n)).map some := by
    rw [pyTail, if_pos (by omega : (0 : Int) ≤ (n : Int))]
    rw [hwlen]
    simp only [Int.toNat_natCast, Nat.sub_self, List.drop_zero]
    exact trend_window_values vs (vs.length - n)
  rw [hvals]
  simp only [show (trendSet ty (n : Int) m).trend_type = some ty from rfl,
    show (trendSet ty (n : Int) m).trend_m = m from rfl, Option.some.injEq]

theorem eval_trend_PN (n : Nat) (m : Option Int) (vs : List ℚ)
    (hn : 0 < n) (hlen : n ≤ vs.length) :
    FE2.evaluate_kpi_filter 0
        (trendSet "Positive-to-Negative" (n : Int) m) (ascFrame vs) =
      .ok (trendPosToNeg ((vs.drop (vs.length - n)).map some) m) := by
  rw [eval_trendSet "Positive-to-Negative" n m vs hn hlen]
  rw [show (trendSet "Positive-to-Negative" (n : Int) m).trend_enabled = true
    from rfl]
  simp only [if_true]
  rw [trendBlock_reduce "Positive-to-Negative" n m vs hn hlen]
  simp

theorem eval_trend_NP (n : Nat) (m : Option Int) (vs : List ℚ)
    (hn : 0 < n) (hlen : n ≤ vs.length) :
    FE2.evaluate_kpi_filter 0
        (trendSet "Negative-to-Positive" (n : Int) m) (ascFrame vs) =
      .ok (trendNegToPos ((vs.drop (vs.length - n)).map some) m) := by
  rw [eval_trendSet "Negative-to-Positive" n m vs hn hlen]
  rw [show (trendSet "Negative-to-Positive" (n : Int) m).trend_enabled = true
    from rfl]
  simp only [if_true]
  rw [trendBlock_reduce "Negative-to-Positive" n m vs hn hlen]
  simp

theorem trendPosToNeg_some_iff (L : List ℚ) (m : Nat) (hm : 0 < m) :
    (trendPosToNeg (L.map some) (some (m : Int)) = true ↔
      ∃ i, i + m < L.length ∧
        List.Chain' (· < ·) ((L.drop i).take m) ∧
        L.getD (i + m) 0 < L.getD (i + m - 1) 0) := by
  rw [trendPosToNeg]
  rw [if_pos (by omega : (0 : Int) < (m : Int))]
  by_cases hL : L.length < m + 1
  · rw [if_pos (by rw [List.length_map]; omega)]
    constructor
    · intro h
      cases h
    · rintro ⟨i, hi, -, -⟩
      omega
  · rw [if_neg (by rw [List.length_map]; omega)]
    rw [Int.toNat_natCast]
    exact posToNegSearch_iff L m hm

theorem trendNegToPos_some_iff (L : List ℚ) (m : Nat) (hm : 0 < m) :
    (trendNegToPos (L.map some) (some (m : Int)) = true ↔
      ∃ i, i + m < L.length ∧
        List.Chain' (· > ·) ((L.drop i).take m) ∧
        L.getD (i + m - 1) 0 < L.getD (i + m) 0) := by
  rw [trendNegToPos]
  rw [if_pos (by omega : (0 : Int) < (m : Int))]
  by_cases hL : L.length < m + 1
  · rw [if_pos (by rw [List.length_map]; omega)]
    constructor
    · intro h
      cases h
    · rintro ⟨i, hi, -, -⟩
      omega
  · rw [if_neg (by rw [List.length_map]; omega)]
    rw [Int.toNat_natCast]
    exact negToPosSearch_iff L m hm

/-- C6.  The transition trend methods of `filters/filter_engine.py`, over
the last `n` values `L` of the series (all present): with sub-window
`m > 0`, `Positive-to-Negative` is true iff some offset `i` has `m`
strictly increasing values followed by a strictly smaller value (and
symmetrically for `Negative-to-Positive`); with `m` unset, the verdict is
true iff some adjacent pair crosses the zero line in the required
direction; and `Positive-to-Negative` with n=4, m=2 on `[1, 2, 1, 0]` is
true. -/
theorem c6_trend_transitions :
    (∀ (vs : List ℚ) (n m : ℕ), 0 < n → n ≤ vs.length → 0 < m →
      (FE2.evaluate_kpi_filter 0
          (trendSet "Positive-to-Negative" (n : Int) (some (m : Int)))
          (ascFrame vs) = .ok true ↔
        ∃ i, i + m < n ∧
          List.Chain' (· < ·)
            (((vs.drop (vs.length - n)).drop i).take m) ∧
          (vs.drop (vs.length - n)).getD (i + m) 0 <
            (vs.drop (vs.length - n)).getD (i + m - 1) 0) ∧
      (FE2.evaluate_kpi_filter 0
          (trendSet "Negative-to-Positive" (n : Int) (some (m : Int)))
          (ascFrame vs) = .ok true ↔
        ∃ i, i + m < n ∧
          List.Chain' (· > ·)
            (((vs.drop (vs.length - n)).drop i).take m) ∧
          (vs.drop (vs.length - n)).getD (i + m - 1) 0 <
            (vs.drop (vs.length - n)).getD (i + m) 0)) ∧
    (∀ (vs : List ℚ) (n : ℕ), 0 < n → n ≤ vs.length →
      (FE2.evaluate_kpi_filter 0
          (trendSet "Positive-to-Negative" (n : Int) none)
          (ascFrame vs) = .ok true ↔
        ∃ i, i + 1 < n ∧ 0 < (vs.drop (vs.length - n)).getD i 0 ∧
          (vs.drop (vs.length - n)).getD (i + 1) 0 ≤ 0) ∧
      (FE2.evaluate_kpi_filter 0
          (trendSet "Negative-to-Positive" (n : Int) none)
          (ascFrame vs) = .ok true ↔
        ∃ i, i + 1 < n ∧ (vs.drop (vs.length - n)).getD i 0 < 0 ∧
          0 ≤ (vs.drop (vs.length - n)).getD (i + 1) 0)) ∧
    FE2.evaluate_kpi_filter 0 (trendSet "Positive-to-Negative" 4 (some 2))
      (ascFrame [1, 2, 1, 0]) = .ok true := by
  refine ⟨?_, ?_, by decide⟩
  · intro vs n m hn hlen hm
    have hLlen : (vs.drop (vs.length - n)).length = n := by
      rw [List.length_drop]
      omega
    constructor
    · rw [eval_trend_PN n (some (m : Int)) vs hn hlen]
      rw [show (Except.ok (trendPosToNeg
          ((vs.drop (vs.length - n)).map some) (some (m : Int))) =
          (Except.ok true : Except PErr Bool)) ↔
        (trendPosToNeg ((vs.drop (vs.length - n)).map some)
          (some (m : Int)) = true) from by simp]
      rw [trendPosToNeg_some_iff (vs.drop (vs.length - n)) m hm, hLlen]
    · rw [eval_trend_NP n (some (m : Int)) vs hn hlen]
      rw [show (Except.ok (trendNegToPos
          ((vs.drop (vs.length - n)).map some) (some (m : Int))) =
          (Except.ok true : Except PErr Bool)) ↔
        (trendNegToPos ((vs.drop (vs.length - n)).map some)
          (some (m : Int)) = true) from by simp]
      rw [trendNegToPos_some_iff (vs.drop (vs.length - n)) m hm, hLlen]
  · intro vs n hn hlen
    have hLlen : (vs.drop (vs.length - n)).length = n := by
      rw [List.length_drop]
      omega
    constructor
    · rw [eval_trend_PN n none vs hn hlen]
      rw [show (Except.ok (trendPosToNeg
          ((vs.drop (vs.length - n)).map some) none) =
          (Except.ok true : Except PErr Bool)) ↔
        (trendPosToNeg ((vs.drop (vs.length - n)).map some) none = true)
        from by simp]
      rw [show trendPosToNeg ((vs.drop (vs.length - n)).map some) none =
        posToNegCross ((vs.drop (vs.length - n)).map some) from rfl]
      rw [posToNegCross_iff (vs.drop (vs.length - n)), hLlen]
    · rw [eval_trend_NP n none vs hn hlen]
      rw [show (Except.ok (trendNegToPos
          ((vs.drop (vs.length - n)).map some) none) =
          (Except.ok true : Except PErr Bool)) ↔
        (trendNegToPos ((vs.drop (vs.length - n)).map some) none = true)
        from by simp]
      rw [show trendNegToPos ((vs.drop (vs.length - n)).map some) none =
        negToPosCross ((vs.drop (vs.length - n)).map some) from rfl]
      rw [negToPosCross_iff (vs.drop (vs.length - n)), hLlen]

/-- C6 witness: `[1, 2, 1, 0]` with n=4, m=2 — offset 0 gives the strictly
increasing run `[1, 2]` followed by the drop to 1. -/
theorem c6_trend_transitions_witness :
    FE2.evaluate_kpi_filter 0 (trendSet "Positive-to-Negative" 4 (some 2))
      (ascFrame [1, 2, 1, 0]) = .ok true :=
  ((c6_trend_transitions.1 [1, 2, 1, 0] 4 2 (by norm_num) (by norm_num)
    (by norm_num)).1).mpr ⟨0, by norm_num,
      by norm_num [List.chain'_cons], by norm_num [List.getD]⟩

/-- The ASCII character of a decimal digit. -/
def digitCharOf (d : Nat) : Char := Char.ofNat (48 + d)

/-- The character list of the literal `f"{y}-Q{q}"` for a 4-digit year
`y` (whose decimal digits are `y/1000`, `y/100 % 10`, `y/10 % 10`,
`y % 10`) and a one-digit quarter `q`. -/
def quarterLit (y q : Nat) : List Char :=
  [digitCharOf (y / 1000 % 10), digitCharOf (y / 100 % 10),
   digitCharOf (y / 10 % 10), digitCharOf (y % 10), '-', 'Q', digitCharOf q]

theorem dc_not_space (d : Nat) (hd : d ≤ 9) :
    isPySpace (digitCharOf d) = false := by
  interval_cases d <;> decide

theorem dc_digit (d : Nat) (hd : d ≤ 9) :
    isDigitC (digitCharOf d) = true := by
  interval_cases d <;> decide

theorem dc_ne_plus (d : Nat) (hd : d ≤ 9) : digitCharOf d ≠ '+' := by
  interval_cases d <;> decide

theorem dc_ne_minus (d : Nat) (hd : d ≤ 9) : digitCharOf d ≠ '-' := by
  interval_cases d <;> decide

theorem dc_ne_und (d : Nat) (hd : d ≤ 9) : digitCharOf d ≠ '_' := by
  interval_cases d <;> decide

theorem dc_val (d : Nat) (hd : d ≤ 9) : digitVal (digitCharOf d) = d := by
  interval_cases d <;> decide

theorem pyInt_digits4 (a b c d : Nat) (ha : a ≤ 9) (hb : b ≤ 9)
    (hc : c ≤ 9) (hd : d ≤ 9) :
    pyInt [digitCharOf a, digitCharOf b, digitCharOf c, digitCharOf d] =
      some ((((a * 10 + b) * 10 + c) * 10 + d : Nat) : Int) := by
  have htrim : (([digitCharOf a, digitCharOf b, digitCharOf c,
      digitCharOf d].dropWhile isPySpace).reverse.dropWhile
        isPySpace).reverse =
      [digitCharOf a, digitCharOf b, digitCharOf c, digitCharOf d] := by
    rw [List.dropWhile_cons]
    rw [dc_not_space a ha]
    simp only [Bool.false_eq_true, if_false]
    rw [show ([digitCharOf a, digitCharOf b, digitCharOf c,
      digitCharOf d] : List Char).reverse = [digitCharOf d, digitCharOf c,
      digitCharOf b, digitCharOf a] from rfl]
    rw [List.dropWhile_cons]
    rw [dc_not_space d hd]
    simp only [Bool.false_eq_true, if_false]
    rfl
  rw [pyInt]
  simp only [htrim]
  rw [if_neg (by simpa using dc_ne_plus a ha),
    if_neg (by simpa using dc_ne_minus a ha)]
  have hvalid : validDigitRun [digitCharOf a, digitCharOf b, digitCharOf c,
      digitCharOf d] = true := by
    rw [validDigitRun]
    simp [dc_digit a ha, dc_digit b hb, dc_digit c hc, dc_digit d hd,
      hasDoubleUnderscore, dc_ne_und a ha, dc_ne_und b hb, dc_ne_und c hc,
      dc_ne_und d hd]
  have hfilter : ([digitCharOf a, digitCharOf b, digitCharOf c,
      digitCharOf d].filter (fun ch => ch ≠ '_')) =
      [digitCharOf a, digitCharOf b, digitCharOf c, digitCharOf d] := by
    simp [List.filter, dc_ne_und a ha, dc_ne_und b hb, dc_ne_und c hc,
      dc_ne_und d hd]
  rw [parseDigits, if_pos hvalid, hfilter]
  rw [digitsValue]
  simp only [List.foldl_cons, List.foldl_nil]
  rw [dc_val a ha, dc_val b hb, dc_val c hc, dc_val d hd]
  simp [Nat.zero_mul]

theorem pyInt_digit1 (q : Nat) (hq : q ≤ 9) :
    pyInt [digitCharOf q] = some ((q : Nat) : Int) := by
  have htrim : (([digitCharOf q].dropWhile isPySpace).reverse.dropWhile
      isPySpace).reverse = [digitCharOf q] := by
    rw [List.dropWhile_cons]
    rw [dc_not_space q hq]
    simp only [Bool.false_eq_true, if_false]
    rw [show ([digitCharOf q] : List Char).reverse = [digitCharOf q]
      from rfl]
    rw [List.dropWhile_cons]
    rw [dc_not_space q hq]
    simp only [Bool.false_eq_true, if_false]
    rfl
  rw [pyInt]
  simp only [htrim]
  rw [if_neg (by simpa using dc_ne_plus q hq),
    if_neg (by simpa using dc_ne_minus q hq)]
  have hvalid : validDigitRun [digitCharOf q] = true := by
    rw [validDigitRun]
    simp [dc_digit q hq, hasDoubleUnderscore, dc_ne_und q hq]
  have hfilter : ([digitCharOf q].filter (fun ch => ch ≠ '_')) =
      [digitCharOf q] := by
    simp [List.filter, dc_ne_und q hq]
  rw [parseDigits, if_pos hvalid, hfilter]
  rw [digitsValue]
  simp only [List.foldl_cons, List.foldl_nil]
  rw [dc_val q hq]
  simp

/-- C5 amended.  `parse_quarter_string` round-trips on well-formed
literals: for any 4-digit year and quarter 1-4 it returns `(y, q)`; and
every string that fails any of the checks the code actually performs —
length exactly 7, hyphen at index 4, `int(s[:4])` parsing, `int(s[6])`
parsing, or the parsed quarter digit lying in {1, 2, 3, 4} — yields
`(None, None)` (e.g. `'abcd-Q1'` and `'2020-Q5'`).  But the literal `'Q'`
at index 5 is never inspected, so `'2020-11'` parses to `(2020, 1)`
instead of `(None, None)`. -/
theorem c5_parse_quarter_amended :
    (∀ y q : Nat, 1000 ≤ y → y ≤ 9999 → 1 ≤ q → q ≤ 4 →
      parse_quarter_string (quarterLit y q) =
        (some (y : Int), some (q : Int))) ∧
    (∀ s : List Char,
      s.length ≠ 7 ∨ s.getD 4 ' ' ≠ '-' ∨ pyInt (s.take 4) = none ∨
        pyInt (s.drop 6) = none ∨
        (∃ qv : Int, pyInt (s.drop 6) = some qv ∧
          qv ≠ 1 ∧ qv ≠ 2 ∧ qv ≠ 3 ∧ qv ≠ 4) →
      parse_quarter_string s = (none, none)) ∧
    parse_quarter_string "abcd-Q1".toList = (none, none) ∧
    parse_quarter_string "2020-Q5".toList = (none, none) ∧
    parse_quarter_string "2020-11".toList = (some 2020, some 1) := by
  refine ⟨?_, ?_, by decide, by decide, by decide⟩
  · intro y q hy1 hy2 hq1 hq2
    have ha : y / 1000 % 10 ≤ 9 := Nat.le_of_lt_succ (Nat.mod_lt _ (by
      norm_num))
    have hb : y / 100 % 10 ≤ 9 := Nat.le_of_lt_succ (Nat.mod_lt _ (by
      norm_num))
    have hc : y / 10 % 10 ≤ 9 := Nat.le_of_lt_succ (Nat.mod_lt _ (by
      norm_num))
    have hd : y % 10 ≤ 9 := Nat.le_of_lt_succ (Nat.mod_lt _ (by norm_num))
    have hq9 : q ≤ 9 := by omega
    rw [parse_quarter_string]
    rw [if_neg (by simp [quarterLit])]
    rw [show (quarterLit y q).take 4 = [digitCharOf (y / 1000 % 10),
      digitCharOf (y / 100 % 10), digitCharOf (y / 10 % 10),
      digitCharOf (y % 10)] from rfl]
    rw [show (quarterLit y q).drop 6 = [digitCharOf q] from rfl]
    rw [pyInt_digits4 _ _ _ _ ha hb hc hd, pyInt_digit1 q hq9]
    have hy : (((y / 1000 % 10 * 10 + y / 100 % 10) * 10 + y / 10 % 10) *
        10 + y % 10 : Nat) = y := by omega
    rw [hy]
    have hcond : ((q : Nat) : Int) = 1 ∨ ((q : Nat) : Int) = 2 ∨
        ((q : Nat) : Int) = 3 ∨ ((q : Nat) : Int) = 4 := by omega
    simp [hcond]
    omega
  · intro s h
    rw [parse_quarter_string]
    split
    · rfl
    · rename_i hcond
      have hlen : s.length = 7 := by
        by_contra hne
        refine hcond ?_
        simp only [Bool.or_eq_true, decide_eq_true_eq]
        left
        right
        exact hne
      have hget : s.getD 4 ' ' = '-' := by
        by_contra hne
        refine hcond ?_
        simp only [Bool.or_eq_true, decide_eq_true_eq]
        right
        exact hne
      rcases h with h | h | h | h | ⟨qv, hq, h1, h2, h3, h4⟩
      · exact absurd hlen h
      · exact absurd hget h
      · rw [h]
      · rw [h]
        cases pyInt (s.take 4) <;> rfl
      · rw [hq]
        cases hyy : pyInt (s.take 4) with
        | none => rfl
        | some yv => simp [h1, h2, h3, h4]

/-- C5 amended witness: the round trip at `y = 2020`, `q = 1`. -/
theorem c5_parse_quarter_amended_witness :
    parse_quarter_string (quarterLit 2020 1) = (some 2020, some 1) :=
  c5_parse_quarter_amended.1 2020 1 (by norm_num) (by norm_num)
    (by norm_num) (by norm_num)
